import Mathlib

/-!
# Verification of the file_converter conversion core

A shallow embedding of the conversion registry, dispatcher, parameter
handling and error behavior of `src/converters.py`, `src/main.py` and
`src/config.py`, together with theorems settling the frozen claims about
the natural-language specification.

Modelling conventions:
* Python strings are Lean `String`; `str.lower()` is modelled by `pyLower`
  (ASCII-faithful, which covers every extension string in the registry).
* Python `pathlib.Path` values are modelled by `PyPath` carrying the final
  component; `Path.suffix` follows the pathlib rule (portion from the last
  dot when that dot is neither first nor last).
* A raised `ConversionError` is an `Except.error` carrying a `ConvError`
  value; the distinct constructors mirror the distinct message shapes of
  the source (unsupported pair, unsupported format, missing capability,
  wrapped underlying failure).
* Calls into third-party libraries (PIL, pandas, the json/xml modules,
  pydub, weasyprint) are embedded at the level of their documented
  semantics, as the spec treats them as external collaborators.
-/

/-- ASCII model of Python `str.lower()`: lower-case each character. -/
def pyLower (s : String) : String :=
  String.mk (s.toList.map Char.toLower)

/-- Model of `pathlib.Path` restricted to its final component. -/
structure PyPath where
  name : String
deriving DecidableEq, Repr

/-- Index of the last occurrence of a dot in a character list
(Python `str.rfind`). -/
def lastDotIdx (cs : List Char) : Option Nat :=
  ((List.range cs.length).filter (fun i => cs.getD i ' ' = '.')).getLast?

/-- `Path.suffix`: the substring from the last dot of the final component,
provided that dot is neither the first nor the last character; otherwise
the empty string. -/
def PyPath.suffix (p : PyPath) : String :=
  let cs := p.name.toList
  match lastDotIdx cs with
  | some i => if 0 < i ∧ i + 1 < cs.length then String.mk (cs.drop i) else ""
  | none => ""

/-- `input_path.suffix[1:].lower()` as computed by `FileConverter.convert`. -/
def PyPath.ext (p : PyPath) : String :=
  pyLower (String.mk (p.suffix.toList.drop 1))

/-- Keyword-parameter names that appear in conversion requests. -/
inductive ParamKey
  | width
  | height
  | quality
  | keepAspect
  | bitrate
deriving DecidableEq, Repr

/-- Values of keyword parameters (Python ints, None, bools, strings). -/
inductive PVal
  | vint (n : Int)
  | vnone
  | vbool (b : Bool)
  | vstr (s : String)
deriving DecidableEq, Repr

/-- A Python `**kwargs` dictionary for a conversion call. -/
abbrev Kwargs := List (ParamKey × PVal)

/-- Identifiers for the converter routines held in the registry. -/
inductive ConverterId
  | imageConvert (fmt : String)
  | csvToJson
  | jsonToCsv
  | csvToXml
  | xmlToCsv
  | jsonToXml
  | xmlToJson
  | csvToExcel
  | excelToCsv
  | markdownToHtml
  | htmlToMarkdown
  | txtToHtml
  | txtToPdf
  | markdownToPdf
  | audioConvert (fmt : String)
deriving DecidableEq, Repr

/-- The distinct `ConversionError` message shapes raised by the source. -/
inductive ConvError
  | unsupportedConversion (src tgt : String)
  | unsupportedFormat (fmt : String)
  | capabilityUnavailable (dep : String)
  | wrapped (ctx : String)
deriving DecidableEq, Repr

/-- Exceptions that can escape a dispatch: a `ConversionError`, or a bare
Python `TypeError` from an unexpected keyword argument. -/
inductive PyErr
  | convError (e : ConvError)
  | typeError (key : ParamKey)
deriving DecidableEq, Repr

/-- Record of the converter function actually entered by a dispatch and
the keyword arguments it received. -/
structure Invocation where
  converter : ConverterId
  args : Kwargs
deriving DecidableEq, Repr

/-- Shape of a registry value: the image lambdas forward their whole
`**kw` to `ImageConverter.convert`, every other lambda discards `**kw`
and calls its converter with the path only. -/
inductive RegEntry
  | image (outFmt : String)
  | plain (c : ConverterId)
deriving DecidableEq, Repr

/-- `FileConverter.CONVERSIONS`: the registry table, key by key. -/
def CONVERSIONS : List ((String × String) × RegEntry) :=
  [ (("jpg", "png"), .image "png")
  , (("jpeg", "png"), .image "png")
  , (("png", "jpg"), .image "jpeg")
  , (("png", "jpeg"), .image "jpeg")
  , (("png", "webp"), .image "webp")
  , (("jpg", "webp"), .image "webp")
  , (("jpeg", "webp"), .image "webp")
  , (("webp", "png"), .image "png")
  , (("webp", "jpg"), .image "jpeg")
  , (("gif", "png"), .image "png")
  , (("bmp", "png"), .image "png")
  , (("bmp", "jpg"), .image "jpeg")
  , (("tiff", "png"), .image "png")
  , (("tiff", "jpg"), .image "jpeg")
  , (("png", "ico"), .image "ico")
  , (("jpg", "ico"), .image "ico")
  , (("csv", "json"), .plain .csvToJson)
  , (("json", "csv"), .plain .jsonToCsv)
  , (("csv", "xml"), .plain .csvToXml)
  , (("xml", "csv"), .plain .xmlToCsv)
  , (("json", "xml"), .plain .jsonToXml)
  , (("xml", "json"), .plain .xmlToJson)
  , (("csv", "xlsx"), .plain .csvToExcel)
  , (("xlsx", "csv"), .plain .excelToCsv)
  , (("xls", "csv"), .plain .excelToCsv)
  , (("md", "html"), .plain .markdownToHtml)
  , (("markdown", "html"), .plain .markdownToHtml)
  , (("html", "md"), .plain .htmlToMarkdown)
  , (("html", "markdown"), .plain .htmlToMarkdown)
  , (("txt", "html"), .plain .txtToHtml)
  , (("txt", "pdf"), .plain .txtToPdf)
  , (("md", "pdf"), .plain .markdownToPdf)
  , (("markdown", "pdf"), .plain .markdownToPdf)
  , (("mp3", "wav"), .plain (.audioConvert "wav"))
  , (("wav", "mp3"), .plain (.audioConvert "mp3"))
  , (("ogg", "mp3"), .plain (.audioConvert "mp3"))
  , (("flac", "mp3"), .plain (.audioConvert "mp3"))
  , (("mp3", "ogg"), .plain (.audioConvert "ogg"))
  , (("wav", "ogg"), .plain (.audioConvert "ogg"))
  , (("flac", "wav"), .plain (.audioConvert "wav"))
  ]

/-- Keyword parameters in the signature of `ImageConverter.convert`
(`width`, `height`, `quality`, `keep_aspect_ratio`). -/
def imageAccepted : List ParamKey :=
  [.width, .height, .quality, .keepAspect]

/-- Semantics of calling a registry lambda with a path and `**kwargs`.
Image lambdas forward all keyword arguments to `ImageConverter.convert`,
which raises `TypeError` on any keyword outside its signature; all other
lambdas swallow `**kw` and call their converter with no keyword
arguments. -/
def applyEntry : RegEntry → Kwargs → Except PyErr Invocation
  | .image fmt, kw =>
    match kw.find? (fun q => !(imageAccepted.contains q.1)) with
    | some q => .error (.typeError q.1)
    | none => .ok ⟨.imageConvert fmt, kw⟩
  | .plain c, _ => .ok ⟨c, []⟩

namespace FileConverter

/-- `FileConverter.can_convert`: case-insensitive membership test of the
pair in the registry. -/
def can_convert (from_format to_format : String) : Bool :=
  (CONVERSIONS.lookup (pyLower from_format, pyLower to_format)).isSome

/-- `FileConverter.convert`: extract the input extension from the path
suffix, lower-case both extensions, look the pair up, raise
`ConversionError` naming both formats when absent, otherwise call the
registered lambda with the keyword arguments. -/
def convert (input_path : PyPath) (output_format : String) (kwargs : Kwargs) :
    Except PyErr Invocation :=
  match CONVERSIONS.lookup (input_path.ext, pyLower output_format) with
  | none =>
    .error (.convError (.unsupportedConversion input_path.ext (pyLower output_format)))
  | some e => applyEntry e kwargs

end FileConverter

/-! ## Image conversion model (`ImageConverter`)

Pixels carry semantic RGBA values in 0..255; an image is its mode, its
dimensions and a pixel function.  PIL operations used by the source
(`Image.new`, `convert`, `split`, `paste`, the JPEG encoder precondition)
are embedded at the level of their documented behavior. -/

/-- Python truthiness of an `Optional[int]` (`None` and `0` are falsy). -/
def truthyInt : Option Int → Bool
  | some n => n != 0
  | none => false

/-- Python `int()` applied to an exact rational: truncation toward zero. -/
def pyInt (q : ℚ) : Int :=
  if q < 0 then ⌈q⌉ else ⌊q⌋

/-- `ImageConverter._resize` dimension computation.  Divisions are exact
rationals standing for Python float division, and `int(...)` truncates.
With `keep_aspect_ratio`, both dimensions given means fit-inside with
`ratio = min(width/origW, height/origH)`; one dimension given scales the
other proportionally; neither given returns the image unchanged.  Without
`keep_aspect_ratio`, each missing dimension defaults to the original. -/
def resizeDims (original_width original_height : Int)
    (width height : Option Int) (keep_aspect : Bool) : Int × Int :=
  if keep_aspect then
    if truthyInt width && truthyInt height then
      let w := width.getD 0
      let h := height.getD 0
      let r : ℚ := min ((w : ℚ) / (original_width : ℚ)) ((h : ℚ) / (original_height : ℚ))
      (pyInt ((original_width : ℚ) * r), pyInt ((original_height : ℚ) * r))
    else if truthyInt width then
      let w := width.getD 0
      let r : ℚ := (w : ℚ) / (original_width : ℚ)
      (w, pyInt ((original_height : ℚ) * r))
    else if truthyInt height then
      let h := height.getD 0
      let r : ℚ := (h : ℚ) / (original_height : ℚ)
      (pyInt ((original_width : ℚ) * r), h)
    else
      (original_width, original_height)
  else
    ((if truthyInt width then width.getD 0 else original_width),
     (if truthyInt height then height.getD 0 else original_height))

/-- An RGBA pixel value (each channel 0..255; `a = 255` is opaque). -/
structure Pix where
  r : Nat
  g : Nat
  b : Nat
  a : Nat
deriving DecidableEq, Repr

/-- Opaque white. -/
def whitePix : Pix := ⟨255, 255, 255, 255⟩

/-- PIL color modes occurring in the source. -/
inductive PMode
  | RGB
  | RGBA
  | LA
  | L
  | P
deriving DecidableEq, Repr

/-- A decoded raster image: mode, dimensions, and semantic pixel values
(for palette mode `P` the pixel function already gives the palette entry
colors, so `convert("RGBA")` only changes the mode). -/
structure PImage where
  mode : PMode
  width : Nat
  height : Nat
  px : Nat → Nat → Pix

/-- `Image.new(mode, size, color)`. -/
def PImage.new (m : PMode) (w h : Nat) (c : Pix) : PImage :=
  ⟨m, w, h, fun _ _ => c⟩

/-- `img.convert("RGBA")` on the semantic-pixel model. -/
def PImage.convertRGBA (img : PImage) : PImage :=
  { img with mode := .RGBA }

/-- PIL `MULDIV255` rounding primitive: `t = a*b + 128` then
`((t >> 8) + t) >> 8`, an integer form of `round(a*b/255)`. -/
def mulDiv255 (a b : Nat) : Nat :=
  let t := a * b + 128
  (t / 256 + t) / 256

/-- One channel of PIL paste-with-mask blending:
`MULDIV255(bg, 255-m) + MULDIV255(fg, m)`. -/
def blendChannel (bg fg m : Nat) : Nat :=
  mulDiv255 bg (255 - m) + mulDiv255 fg m

/-- Alpha-compositing a pixel onto an opaque white background. -/
def compositeOnWhite (p : Pix) : Pix :=
  ⟨blendChannel 255 p.r p.a, blendChannel 255 p.g p.a, blendChannel 255 p.b p.a, 255⟩

/-- Dropping the alpha channel (PIL paste without a mask converts the
pasted image to the mode of the target, here RGB). -/
def Pix.toOpaqueRGB (p : Pix) : Pix :=
  ⟨p.r, p.g, p.b, 255⟩

/-- `background.paste(img, mask)` for a full-size paste: with a mask the
channels are blended per pixel by the mask value; without a mask the
pasted image fully overwrites the background after mode conversion. -/
def PImage.paste (bg : PImage) (img : PImage) (mask : Option (Nat → Nat → Nat)) : PImage :=
  { bg with px := fun x y =>
      match mask with
      | some m =>
        let mv := m x y
        let b := bg.px x y
        let f := img.px x y
        ⟨blendChannel b.r f.r mv, blendChannel b.g f.g mv, blendChannel b.b f.b mv, b.a⟩
      | none => (img.px x y).toOpaqueRGB }

/-- The alpha band `img.split()[-1]` of an RGBA image. -/
def alphaBand (img : PImage) : Nat → Nat → Nat :=
  fun x y => (img.px x y).a

/-- Lines 90-95 of `converters.py`: for a JPEG target with mode RGBA, LA
or P, build an opaque white RGB background, convert P to RGBA first, and
paste using the alpha band as mask when the pasted image is RGBA (so an
LA image is pasted without a mask). -/
def jpegFlatten (img : PImage) : PImage :=
  if img.mode = .RGBA ∨ img.mode = .LA ∨ img.mode = .P then
    let background := PImage.new .RGB img.width img.height whitePix
    let img1 := if img.mode = .P then img.convertRGBA else img
    let mask : Option (Nat → Nat → Nat) :=
      if img1.mode = .RGBA then some (alphaBand img1) else none
    background.paste img1 mask
  else img

/-- The JPEG encoder accepts only modes without alpha or palette; PIL
raises an encode error on RGBA, LA and P input. -/
def jpegEncodable : PMode → Bool
  | .RGB => true
  | .L => true
  | _ => false

/-- A successful `img.resize(new_size, LANCZOS)`: the resampler is an
external PIL capability, modelled as a dimension change; pixel-level
claims are only stated for conversions that request no resize.  The
dimension validation that Pillow performs before resampling lives in
`resizeChecked`. -/
def resampleTo (img : PImage) (d : Int × Int) : PImage :=
  { img with width := d.1.toNat, height := d.2.toNat }

/-- The resize step of `ImageConverter.convert`: compute the target
dimensions with `_resize` and call `img.resize`.  Pillow raises
ValueError ("height and width must be > 0") when a computed dimension
is below 1; the enclosing handler of `convert` wraps that into a
`ConversionError`, so the error carries the ValueError text here. -/
def resizeChecked (img : PImage) (width height : Option Int) (keep_aspect : Bool) :
    Except ConvError PImage :=
  let d := resizeDims (img.width : Int) (img.height : Int) width height keep_aspect
  if d.1 < 1 ∨ d.2 < 1 then
    .error (.wrapped "height and width must be greater than 0")
  else
    .ok (resampleTo img d)

/-- Formats accepted by `ImageConverter.convert` after the jpg alias step. -/
def imageFormats : List String :=
  ["jpeg", "png", "gif", "webp", "bmp", "tiff", "ico"]

/-- The fixed MIME mapping of `ImageConverter.convert`. -/
def imageMimeTypes : List (String × String) :=
  [ ("jpeg", "image/jpeg")
  , ("png", "image/png")
  , ("gif", "image/gif")
  , ("webp", "image/webp")
  , ("bmp", "image/bmp")
  , ("tiff", "image/tiff")
  , ("ico", "image/x-icon")
  ]

namespace ImageConverter

/-- `ImageConverter.convert` on a decoded image: lower-case the format,
canonicalize `jpg` to `jpeg`, reject unknown formats, flatten onto white
for JPEG targets with alpha or palette modes, resize when a dimension is
requested, then encode (the JPEG encoder rejecting alpha or palette
modes), resize when a dimension is requested (failing with the wrapped
Pillow ValueError when a computed dimension is below 1), then encode
(the JPEG encoder rejecting alpha or palette modes) and return the
image with its MIME type.  The `quality` argument only tunes the lossy
encoders (it reaches `save` for jpeg and webp and shapes the output
bytes, which are not modelled), so it is carried but does not influence
the decoded result. -/
def convert (img : PImage) (output_format : String)
    (width height : Option Int) (_quality : Int) (keep_aspect : Bool) :
    Except ConvError (PImage × String) :=
  let fmt0 := pyLower output_format
  let fmt := if fmt0 = "jpg" then "jpeg" else fmt0
  if !(imageFormats.contains fmt) then
    .error (.unsupportedFormat fmt)
  else
    let img1 := if fmt = "jpeg" then jpegFlatten img else img
    match (if truthyInt width || truthyInt height then
            resizeChecked img1 width height keep_aspect
          else .ok img1) with
    | .error e => .error e
    | .ok img2 =>
      if fmt = "jpeg" && !(jpegEncodable img2.mode) then
        .error (.wrapped "cannot write this mode as JPEG")
      else
        .ok (img2, ((imageMimeTypes.lookup fmt).getD "application/octet-stream"))

end ImageConverter

/-! ## Document conversion model (`DocumentConverter`, capability paths) -/

/-- Python `str.replace` for a single-character pattern. -/
def replaceChar (s : String) (c : Char) (rep : String) : String :=
  String.mk ((s.toList.map (fun ch => if ch = c then rep.toList else [ch])).flatten)

/-- The escaping step of `txt_to_html`: `&`, then `<`, then `>`. -/
def htmlEscape (s : String) : String :=
  replaceChar (replaceChar (replaceChar s '&' "&amp;") '<' "&lt;") '>' "&gt;"

namespace DocumentConverter

/-- The static HTML shell of `txt_to_html` around the escaped body; the
embedded stylesheet text is abbreviated since no claim depends on it. -/
def txtHtmlShell (body : String) : String :=
  "<!DOCTYPE html>\n<html lang=\"ru\">\n<head><meta charset=\"UTF-8\"><title>Text Document</title></head>\n<body>\n"
    ++ body ++ "\n</body>\n</html>"

/-- `DocumentConverter.txt_to_html` on the file content: escape HTML,
turn newlines into `<br>` line breaks, wrap in the document shell. -/
def txt_to_html (text : String) : String × String :=
  (txtHtmlShell (replaceChar (htmlEscape text) '\n' "<br>\n"), "text/html")

/-- The external `markdown.markdown` renderer (tables, fenced code,
codehilite, toc extensions); its output is opaque to every claim, so the
capability is carried as a function of the source text. -/
def markdownRender (md_content : String) : String := md_content

/-- The static full-page shell of `markdown_to_html`, abbreviated. -/
def mdHtmlShell (body : String) : String :=
  "<!DOCTYPE html>\n<html lang=\"ru\">\n<head><meta charset=\"UTF-8\"><title>Converted Document</title></head>\n<body>\n"
    ++ body ++ "\n</body>\n</html>"

/-- `DocumentConverter.markdown_to_html` with the default `full_page`. -/
def markdown_to_html (md_content : String) : String × String :=
  (mdHtmlShell (markdownRender md_content), "text/html")

/-- The external WeasyPrint `HTML(string=...).write_pdf()` capability,
modelled as a byte stream determined by its HTML input. -/
def weasyWritePdf (html : String) : String :=
  "%PDF-" ++ html

/-- `DocumentConverter.txt_to_pdf`: `from weasyprint import HTML` runs
first, so when the capability is absent the `ImportError` is caught and
re-raised as a `ConversionError` naming WeasyPrint before any file work;
otherwise the text is routed through `txt_to_html` and rendered. -/
def txt_to_pdf (weasyprint_available : Bool) (text : String) :
    Except ConvError (String × String) :=
  if weasyprint_available then
    .ok (weasyWritePdf (txt_to_html text).1, "application/pdf")
  else
    .error (.capabilityUnavailable "WeasyPrint")

/-- `DocumentConverter.markdown_to_pdf`: same capability check, routed
through `markdown_to_html`. -/
def markdown_to_pdf (weasyprint_available : Bool) (text : String) :
    Except ConvError (String × String) :=
  if weasyprint_available then
    .ok (weasyWritePdf (markdown_to_html text).1, "application/pdf")
  else
    .error (.capabilityUnavailable "WeasyPrint")

end DocumentConverter

/-! ## Audio conversion model (`AudioConverter`) -/

/-- A decoded `pydub.AudioSegment`: length in milliseconds, channel
count, frame rate.  Decoding from the input path is an external
capability, so converter models receive the decode outcome directly. -/
structure AudioSeg where
  lengthMs : Nat
  channels : Nat
  frame_rate : Nat
deriving DecidableEq, Repr

/-- The export performed by `AudioConverter.convert`: target format and
the bitrate parameter, which is passed to the encoder only for mp3. -/
structure AudioExport where
  format : String
  bitrate : Option String
deriving DecidableEq, Repr

namespace AudioConverter

def SUPPORTED_FORMATS : List String := ["mp3", "wav", "ogg", "flac"]

def audioMimeTypes : List (String × String) :=
  [("mp3", "audio/mpeg"), ("wav", "audio/wav"), ("ogg", "audio/ogg"), ("flac", "audio/flac")]

/-- `AudioConverter.convert`: the `AUDIO_SUPPORT` flag is checked first,
failing with a `ConversionError` naming pydub before anything else; then
the target format is validated, the source decoded (externally), and the
export assembled with `bitrate` only for mp3 targets. -/
def convert (audio_support : Bool) (decoded : Option AudioSeg)
    (output_format : String) (bitrate : String) :
    Except ConvError (AudioExport × String) :=
  if !audio_support then
    .error (.capabilityUnavailable "pydub")
  else
    let fmt := pyLower output_format
    if !(SUPPORTED_FORMATS.contains fmt) then
      .error (.unsupportedFormat fmt)
    else
      match decoded with
      | none => .error (.wrapped "audio decode failed")
      | some _ =>
        .ok ({ format := fmt, bitrate := if fmt = "mp3" then some bitrate else none },
             (audioMimeTypes.lookup fmt).getD "audio/mpeg")

/-- Return value of `AudioConverter.get_info`: a dictionary of audio
facts, or a dictionary with an error entry (returned, not raised). -/
inductive InfoResult
  | info (duration_seconds : ℚ) (channels : Nat) (sample_rate : Nat) (size_bytes : Nat)
  | errorStatus (msg : String)
deriving DecidableEq, Repr

/-- `AudioConverter.get_info`: with pydub missing it returns an error
dictionary naming pydub instead of raising; a decode failure likewise
returns an error dictionary; otherwise it reports duration in seconds,
channels, sample rate and file size without re-encoding. -/
def get_info (audio_support : Bool) (decoded : Option AudioSeg) (size_bytes : Nat) :
    InfoResult :=
  if !audio_support then
    .errorStatus "pydub is not installed"
  else
    match decoded with
    | none => .errorStatus "audio decode failed"
    | some a => .info ((a.lengthMs : ℚ) / 1000) a.channels a.frame_rate size_bytes

end AudioConverter

/-! ## HTTP endpoint model (`main.convert_file`) -/

def MAX_FILE_SIZE : Nat := 50 * 1024 * 1024

/-- `config.get_file_extension`: text after the last dot, lower-cased,
or the empty string when the name has no dot. -/
def get_file_extension (filename : String) : String :=
  if filename.toList.contains '.' then
    pyLower (String.mk ((filename.toList.splitOn '.').getLastD []))
  else ""

/-- Python `str.strip(".")` (both ends). -/
def pyStripDots (s : String) : String :=
  String.mk (((s.toList.dropWhile (fun c => c = '.')).reverse.dropWhile (fun c => c = '.')).reverse)

/-- HTTP-level failures of the `/convert` endpoint.  `invalidParameter`
is the FastAPI 422 validation rejection produced by the declarative
`Query(85, ge=1, le=100)` bound before the endpoint body runs. -/
inductive HttpError
  | invalidParameter (param : String)
  | badRequest (msg : String)
  | internalError
deriving DecidableEq, Repr

/-- Keyword value for an `Optional[int]` argument. -/
def pvOfOpt : Option Int → PVal
  | some n => .vint n
  | none => .vnone

/-- `main.convert_file`: FastAPI validates the `quality` query bound
[1,100] before the body runs; the body then checks the size limit,
extracts the extension, lower-cases and strips dots from the target,
consults `can_convert`, writes the upload to a uuid-prefixed path, and
calls `FileConverter.convert` with `width`, `height` and `quality`.
`ConversionError` becomes a 400 response and any other exception a 500
response. -/
def convert_file (uuid4 : String) (filename : String) (content_size : Nat)
    (output_format : String) (width height : Option Int) (quality : Int) :
    Except HttpError Invocation :=
  if quality < 1 ∨ 100 < quality then
    .error (.invalidParameter "quality")
  else if content_size > MAX_FILE_SIZE then
    .error (.badRequest "file too large")
  else
    let input_ext := get_file_extension filename
    let out_fmt := pyStripDots (pyLower output_format)
    if !(FileConverter.can_convert input_ext out_fmt) then
      .error (.badRequest "conversion not supported")
    else
      let input_path : PyPath := ⟨uuid4 ++ "_" ++ filename⟩
      let kw : Kwargs :=
        [(.width, pvOfOpt width), (.height, pvOfOpt height), (.quality, .vint quality)]
      match FileConverter.convert input_path out_fmt kw with
      | .ok inv => .ok inv
      | .error (.convError _) => .error (.badRequest "conversion failed")
      | .error (.typeError _) => .error .internalError

/-! ## Structured-data conversion model (`DataConverter`, CSV and JSON)

The CSV text layer is modelled character-exactly (comma and newline
splitting and joining).  The `json.dumps`/`json.load` serialization pair
between `csv_to_json` and `json_to_csv` is an exact codec on the JSON
document, so the two converters exchange the JSON AST directly.  The
pandas type inference that turns CSV cells into JSON scalars is modelled
per cell for integer literals, missing values and plain strings; the
round-trip theorem carries a column-homogeneity hypothesis under which
this per-cell model agrees with the per-column dtype inference of pandas
(mixed integer/missing columns, float literals and boolean or NA words
are excluded rather than modelled). -/

namespace DataConv

/-- Scalar JSON values occurring in tabular records. -/
inductive JVal
  | jnull
  | jint (n : Int)
  | jstr (s : String)
deriving DecidableEq, Repr

/-- Little-endian decimal digits computed with structural fuel (any
fuel at least the number itself suffices), so that renderings compute
by plain reduction. -/
def natDigitsFuel : Nat → Nat → List Nat
  | 0, _ => []
  | _ + 1, 0 => []
  | fuel + 1, n + 1 => ((n + 1) % 10) :: natDigitsFuel fuel ((n + 1) / 10)

/-- Decimal digits of a natural number, most significant first. -/
def natDecimal (n : Nat) : List Char :=
  if n = 0 then ['0']
  else ((natDigitsFuel n n).map (fun d => Char.ofNat (48 + d))).reverse

/-- Python `str()` of an integer. -/
def intDecimal (n : Int) : List Char :=
  if n < 0 then '-' :: natDecimal n.natAbs else natDecimal n.toNat

/-- Value of a string of decimal digits. -/
def parseNatDigits (cs : List Char) : Nat :=
  cs.foldl (fun acc c => acc * 10 + (c.toNat - 48)) 0

/-- Whether a cell is an integer literal (optional leading minus then at
least one digit), the shape pandas reads as an integer. -/
def isIntLit (cs : List Char) : Bool :=
  if cs.head? = some '-' then !(cs.drop 1).isEmpty && (cs.drop 1).all Char.isDigit
  else !cs.isEmpty && cs.all Char.isDigit

/-- Integer value of an integer literal. -/
def parseIntLit (cs : List Char) : Int :=
  if cs.head? = some '-' then -(parseNatDigits (cs.drop 1) : Int)
  else (parseNatDigits cs : Int)

/-- Pandas cell typing on read: empty cell is missing (NaN, serialized as
JSON null), an integer literal is an integer, anything else a string.
Faithful to `pd.read_csv` only on the signed 64-bit integer range: a
literal beyond int64 overflows to lossy float64 in pandas, so the
round-trip hypotheses (`colOk` via `intCell`) restrict integer cells to
that range and longer literals are outside the model. -/
def inferCell (s : String) : JVal :=
  if s = "" then .jnull
  else if isIntLit s.toList then .jint (parseIntLit s.toList)
  else .jstr s

/-- Pandas cell rendering on write (`to_csv`): missing values become the
empty field, integers their decimal form, strings themselves. -/
def renderVal : JVal → String
  | .jnull => ""
  | .jint n => String.mk (intDecimal n)
  | .jstr s => s

/-- A parsed DataFrame: header names and rows of typed values. -/
structure CsvTable where
  header : List String
  rows : List (List JVal)
deriving DecidableEq, Repr

/-- Comma-join of a row of cells (the writing side of the CSV codec). -/
def joinComma : List String → List Char
  | [] => []
  | [c] => c.toList
  | c :: rest => c.toList ++ ',' :: joinComma rest

/-- Newline-join of lines (a CSV file without trailing newline). -/
def joinLines : List (List Char) → List Char
  | [] => []
  | [l] => l
  | l :: rest => l ++ '\n' :: joinLines rest

/-- Each line terminated by a newline (`to_csv` output shape). -/
def terminateLines (ls : List (List Char)) : List Char :=
  (ls.map (fun l => l ++ ['\n'])).flatten

/-- Split a line into cells at commas. -/
def splitCells (line : List Char) : List String :=
  (line.splitOn ',').map (fun cs => String.mk cs)

/-- `pd.read_csv` on file content: split into lines, skip blank lines,
take the first line as header, require a rectangular body, and type each
cell.  `none` is the parse failure that `csv_to_json` wraps into a
`ConversionError`. -/
def read_csv (text : String) : Option CsvTable :=
  match (text.toList.splitOn '\n').filter (fun l => !l.isEmpty) with
  | [] => none
  | hd :: rest =>
    if rest.all (fun l => (splitCells l).length = (splitCells hd).length) then
      some ⟨splitCells hd, rest.map (fun l => (splitCells l).map (fun c => inferCell c))⟩
    else none

/-- A JSON row object of the `records` orientation. -/
abbrev JRecord := List (String × JVal)

/-- `df.to_json(orient="records")`: one object per row, keys from the
header in order. -/
def to_json_records (t : CsvTable) : List JRecord :=
  t.rows.map (fun r => t.header.zip r)

/-- `DataConverter.csv_to_json` at the JSON-document level: read the CSV
with pandas and serialize the records (the JSON text stage is the exact
`json` codec). -/
def csv_to_json (text : String) : Except String (List JRecord) :=
  match read_csv text with
  | none => .error "CSV to JSON conversion failed"
  | some t => .ok (to_json_records t)

/-- Column labels of `pd.DataFrame(records)`: union of record keys in
order of first appearance. -/
def dfColumns (records : List JRecord) : List String :=
  records.foldl (fun acc r => acc ++ ((r.map Prod.fst).filter (fun k => !acc.contains k))) []

/-- Cell of a record under a column label; missing keys are NaN. -/
def recordGet (r : JRecord) (k : String) : JVal :=
  ((r.find? (fun q => q.1 = k)).map Prod.snd).getD .jnull

/-- `DataConverter.json_to_csv` at the JSON-document level: build the
DataFrame from the record list and write it with `to_csv(index=False)`
(header line then rows, each line newline-terminated). -/
def json_to_csv (records : List JRecord) : String :=
  String.mk (terminateLines
    (joinComma (dfColumns records) ::
      records.map (fun r =>
        joinComma ((dfColumns records).map (fun c => renderVal (recordGet r c))))))

/-- The CSV file holding a given dataset, one comma-joined line per row. -/
def csvText (header : List String) (cells : List (List String)) : String :=
  String.mk (joinLines ((header :: cells).map joinComma))

/-- A cell with no separator, quoting or line-break characters. -/
def goodCell (s : String) : Bool :=
  s.toList.all (fun c => !([',', '\n', '\r', '"', '\t'].contains c))

/-- Spaces stripped from both ends. -/
def trimSpaces (cs : List Char) : List Char :=
  ((cs.dropWhile (fun c => c = ' ')).reverse.dropWhile (fun c => c = ' ')).reverse

/-- Cells that pandas would try to read numerically. -/
def looksNumeric (s : String) : Bool :=
  let t := trimSpaces s.toList
  !t.isEmpty && t.all (fun c => c.isDigit || ['.', '-', '+', 'e', 'E'].contains c)
    && t.any Char.isDigit

/-- Strings pandas reads as missing values. -/
def naWords : List String :=
  ["nan", "NaN", "NAN", "NA", "N/A", "n/a", "NULL", "null", "None", "<NA>"]

/-- Strings pandas reads as booleans. -/
def boolWords : List String :=
  ["True", "False", "TRUE", "FALSE", "true", "false"]

/-- A cell that stays a plain string (or missing) under pandas typing:
empty, or not numeric-looking and not an NA or boolean word. -/
def plainCell (s : String) : Bool :=
  s = "" || (!looksNumeric s
    && !(naWords.contains (String.mk (trimSpaces s.toList)))
    && !(boolWords.contains (String.mk (trimSpaces s.toList))))

/-- Column `j` of the dataset. -/
def column (cells : List (List String)) (j : Nat) : List String :=
  cells.map (fun r => r.getD j "")

/-- An integer-literal cell whose value fits the signed 64-bit range,
the domain on which `pd.read_csv` keeps integers exact (int64); longer
literals overflow to lossy float64 and are excluded from the model. -/
def intCell (s : String) : Bool :=
  isIntLit s.toList
    && decide (-(2 ^ 63) ≤ parseIntLit s.toList)
    && decide (parseIntLit s.toList < 2 ^ 63)

/-- Column homogeneity: every cell an in-range integer literal (an
int64 column), or every cell empty-or-plain (an object column).  Under
this hypothesis the per-cell `inferCell` model coincides with the
per-column dtype inference of pandas, and no value overflows to
float64. -/
def colOk (col : List String) : Prop :=
  (∀ s ∈ col, intCell s) ∨ (∀ s ∈ col, plainCell s)

instance (col : List String) : Decidable (colOk col) := by
  unfold colOk
  infer_instance

end DataConv

/-! ## JSON to XML and back (`json_to_xml`, `xml_to_json`)

The JSON AST models `json.load` output (the `json` codec is exact).  XML
elements carry tag, text and children as in `xml.etree.ElementTree`;
attributes and tails play no role in the source.  The serialize,
pretty-print and re-parse pipeline between the two converters
(`ET.tostring`, `minidom.toprettyxml`, `ET.parse`) is modelled by
`reparse`: a leaf keeps its text inline (empty text collapses to a
self-closing element whose parse has no text), while an element with
children gains indentation whitespace as its text. -/

inductive Json
  | jnull
  | jbool (b : Bool)
  | jint (n : Int)
  | jstr (s : String)
  | jarr (items : List Json)
  | jobj (entries : List (String × Json))
deriving Repr

inductive XElem
  | mk (tag : String) (text : Option String) (children : List XElem)
deriving Repr

def XElem.tag : XElem → String
  | .mk t _ _ => t

def XElem.text : XElem → Option String
  | .mk _ t _ => t

def XElem.children : XElem → List XElem
  | .mk _ _ c => c

/-- `str(key).replace(" ", "_")` applied to element names. -/
def underscoreKey (k : String) : String :=
  String.mk (k.toList.map (fun c => if c = ' ' then '_' else c))

/-- Python `str()` of a scalar JSON value as used by `dict_to_xml`
(`None` becomes the empty string); the list and object cases are
unreachable there. -/
def pyStr : Json → String
  | .jnull => ""
  | .jbool true => "True"
  | .jbool false => "False"
  | .jint n => String.mk (DataConv.intDecimal n)
  | .jstr s => s
  | .jarr _ => ""
  | .jobj _ => ""

/-- `dict_to_xml` of `json_to_xml`: objects become child elements named
by the underscored key, lists become repeated `item` children, and a
scalar sets the element text to its string form. -/
def jsonToXmlElem (tag : String) : Json → XElem
  | .jobj kvs => .mk tag none (kvs.attach.map (fun kv => jsonToXmlElem (underscoreKey kv.1.1) kv.1.2))
  | .jarr xs => .mk tag none (xs.attach.map (fun x => jsonToXmlElem "item" x.1))
  | v => .mk tag (some (pyStr v)) []
termination_by j => sizeOf j
decreasing_by
  · have h := List.sizeOf_lt_of_mem kv.2
    have h2 : sizeOf kv.1.2 < sizeOf kv.1 := by
      obtain ⟨⟨a, b⟩, hm⟩ := kv
      simp
    simp only [Json.jobj.sizeOf_spec]
    omega
  · have h := List.sizeOf_lt_of_mem x.2
    simp only [Json.jarr.sizeOf_spec]
    omega

/-- `DataConverter.json_to_xml` on the loaded document: a root element
named `data`; a top-level list becomes `item` children of the root,
anything else is rendered into the root directly (both cases coincide
with `jsonToXmlElem` on the root tag). -/
def json_to_xml (data : Json) : XElem :=
  jsonToXmlElem "data" data

/-- Whitespace inserted between an element and its children by
`minidom.toprettyxml`; `xml_to_json` never reads the text of an element
that has children, so only its presence matters. -/
def prettyWs : String := "\n  "

/-- XML end-of-line normalization performed by the re-parse: a CR-LF
pair and a lone CR in character data both become a single LF. -/
def normalizeEolChars : List Char → List Char
  | [] => []
  | [c] => [if c = '\x0d' then '\n' else c]
  | c :: d :: rest =>
    if c = '\x0d' ∧ d = '\n' then '\n' :: normalizeEolChars rest
    else (if c = '\x0d' then '\n' else c) :: normalizeEolChars (d :: rest)

/-- XML end-of-line normalization on a string. -/
def normalizeEol (s : String) : String :=
  String.mk (normalizeEolChars s.toList)

/-- Characters allowed in XML 1.0 character data (tab, line endings and
code points from space upward except the two non-characters; surrogates
are already excluded by `Char`).  Text containing other control
characters makes `minidom.parseString` raise, which `xml_to_json` would
wrap into a `ConversionError`; such text is outside the total model, so
the round-trip theorem assumes this predicate. -/
def xmlTextChar (c : Char) : Bool :=
  c = '\t' || c = '\n' || c = '\x0d'
    || (32 ≤ c.toNat && c.toNat != 0xFFFE && c.toNat != 0xFFFF)

/-- The serialize / pretty-print / re-parse pipeline between the two
converters, total on XML-valid text (see `xmlTextChar`).  A childless
element with text `""` (or no text) serializes self-closing and parses
back with no text; nonempty leaf text is written inline and survives up
to XML end-of-line normalization; an element with children acquires
indentation whitespace as its text. -/
def reparse : XElem → XElem
  | .mk tag txt [] =>
    .mk tag (match txt with
             | some t => if t = "" then none else some (normalizeEol t)
             | none => none) []
  | .mk tag _ (c :: cs) =>
    .mk tag (some prettyWs) ((c :: cs).attach.map (fun x => reparse x.1))
termination_by e => sizeOf e
decreasing_by
  have h := List.sizeOf_lt_of_mem x.2
  simp only [XElem.mk.sizeOf_spec]
  omega

/-- The repeated-tag accumulation of `xml_to_dict`: a first occurrence
is appended; a repeated tag turns the existing value into a list (if it
is not one already) and appends to it, in place. -/
def insertTag (acc : List (String × Json)) (tag : String) (v : Json) : List (String × Json) :=
  match acc.lookup tag with
  | none => acc ++ [(tag, v)]
  | some (Json.jarr xs) => acc.map (fun q => if q.1 = tag then (tag, Json.jarr (xs ++ [v])) else q)
  | some old => acc.map (fun q => if q.1 = tag then (tag, Json.jarr [old, v]) else q)

/-- `xml_to_dict`: an element with children folds them into an object
with repeated-tag collapsing, each child contributing its recursive
value when it has children and its text otherwise (absent text is
`None`); a childless element is its text (`None` when absent, which
`json.dumps` writes as null). -/
def xmlToDictVal : XElem → Json
  | .mk _ txt [] =>
    match txt with
    | some t => .jstr t
    | none => .jnull
  | .mk _ _ (c :: cs) =>
    .jobj ((c :: cs).attach.foldl
      (fun acc ch =>
        insertTag acc ch.1.tag
          (if ch.1.children.isEmpty then
            match ch.1.text with
            | some t => Json.jstr t
            | none => Json.jnull
          else xmlToDictVal ch.1)) [])
termination_by e => sizeOf e
decreasing_by
  have h := List.sizeOf_lt_of_mem ch.2
  simp only [XElem.mk.sizeOf_spec]
  omega

/-- One step of the child fold of `xml_to_dict`, named for reasoning:
insert the tag with the recursive value for children-bearing children,
else with the text value. -/
def xmlFoldStep (acc : List (String × Json)) (ch : XElem) : List (String × Json) :=
  insertTag acc ch.tag
    (if ch.children.isEmpty then
      (match ch.text with
       | some t => Json.jstr t
       | none => Json.jnull)
    else xmlToDictVal ch)

/-- `DataConverter.xml_to_json` on the parsed root: the document is the
object mapping the root tag to `xml_to_dict(root)`. -/
def xml_to_json (root : XElem) : Json :=
  .jobj [(root.tag, xmlToDictVal root)]

/-- The complete JSON to XML to JSON round trip of the source: convert
to XML, write and pretty-print and re-parse, convert back. -/
def jsonXmlRoundTrip (data : Json) : Json :=
  xml_to_json (reparse (json_to_xml data))

/-- Scalar JSON values (no containers). -/
def jsonScalar : Json → Bool
  | .jarr _ => false
  | .jobj _ => false
  | _ => true

/-- The value the round trip hands back for a scalar: its Python string
form, with the empty string collapsing to null through the self-closing
element. -/
def roundTripScalar (v : Json) : Json :=
  if pyStr v = "" then .jnull else .jstr (pyStr v)

/-! ## Theorems -/

/-- Auxiliary: a lookup succeeds exactly when the key occurs among the
keys of the association list. -/
theorem lookup_isSome_iff {β : Type} (l : List ((String × String) × β)) (k : String × String) :
    (l.lookup k).isSome ↔ k ∈ l.map Prod.fst := by
  induction l with
  | nil => simp [List.lookup]
  | cons p t ih =>
    obtain ⟨a, b⟩ := p
    by_cases h : k = a
    · subst h
      simp [List.lookup]
    · have hbeq : (k == a) = false := by
        simpa using h
      rw [List.lookup, hbeq]
      simp only [List.map_cons, List.mem_cons, ih]
      simp [h]

/-- Claim C1: when the pair of the lower-cased input extension taken
from the path suffix and the lower-cased target extension is not a key
of the registry, `FileConverter.convert` raises the unsupported-pair
`ConversionError` naming both formats; no converter is entered (the
result carries no invocation) and hence no filesystem access happens. -/
theorem convert_unsupported_pair (p : PyPath) (output_format : String) (kw : Kwargs)
    (h : (p.ext, pyLower output_format) ∉ CONVERSIONS.map Prod.fst) :
    FileConverter.convert p output_format kw =
      .error (.convError (.unsupportedConversion p.ext (pyLower output_format))) := by
  have hnone : CONVERSIONS.lookup (p.ext, pyLower output_format) = none := by
    rcases hl : CONVERSIONS.lookup (p.ext, pyLower output_format) with _ | e
    · rfl
    · exact absurd ((lookup_isSome_iff _ _).1 (by simp [hl])) h
  unfold FileConverter.convert
  rw [hnone]

/-- Witness for C1 at the spec example `a.unsupportedext` to png. -/
theorem convert_unsupported_pair_witness :
    FileConverter.convert ⟨"a.unsupportedext"⟩ "png" [] =
      .error (.convError (.unsupportedConversion "unsupportedext" "png")) := by
  have h : (PyPath.ext ⟨"a.unsupportedext"⟩, pyLower "png") ∉ CONVERSIONS.map Prod.fst := by
    decide
  exact convert_unsupported_pair ⟨"a.unsupportedext"⟩ "png" [] h

/-- Claim C2: `can_convert` answers true exactly when the lower-cased
pair is a registered key; it is case-insensitive on both arguments and
answers true on every registered pair. -/
theorem can_convert_spec (src tgt : String) :
    (FileConverter.can_convert src tgt = true ↔
        (pyLower src, pyLower tgt) ∈ CONVERSIONS.map Prod.fst)
    ∧ (∀ src2 tgt2, pyLower src2 = pyLower src → pyLower tgt2 = pyLower tgt →
        FileConverter.can_convert src2 tgt2 = FileConverter.can_convert src tgt)
    ∧ (∀ k ∈ CONVERSIONS.map Prod.fst, FileConverter.can_convert k.1 k.2 = true) := by
  refine ⟨?_, ?_, by decide⟩
  · unfold FileConverter.can_convert
    exact ⟨fun hb => (lookup_isSome_iff _ _).1 hb, fun hm => (lookup_isSome_iff _ _).2 hm⟩
  · intro src2 tgt2 hs ht
    unfold FileConverter.can_convert
    rw [hs, ht]

/-- Witness for C2: mixed-case spellings agree with the lower-cased
lookup and a registered pair answers true. -/
theorem can_convert_spec_witness :
    FileConverter.can_convert "WebP" "JPG" = FileConverter.can_convert "webp" "jpg"
    ∧ FileConverter.can_convert "webp" "jpg" = true := by
  refine ⟨(can_convert_spec "webp" "jpg").2.1 "WebP" "JPG" (by decide) (by decide), ?_⟩
  exact (can_convert_spec "webp" "jpg").2.2 ("webp", "jpg") (by decide)

/-- Claim C10: the jpg and jpeg spellings are separate registry keys
with asymmetric coverage: webp to jpg, png to jpeg and jpg to ico are
supported while webp to jpeg, jpeg to ico and gif to jpg are not. -/
theorem jpg_jpeg_alias_asymmetry :
    FileConverter.can_convert "webp" "jpg" = true
    ∧ FileConverter.can_convert "png" "jpeg" = true
    ∧ FileConverter.can_convert "jpg" "ico" = true
    ∧ FileConverter.can_convert "webp" "jpeg" = false
    ∧ FileConverter.can_convert "jpeg" "ico" = false
    ∧ FileConverter.can_convert "gif" "jpg" = false := by
  decide

/-- Claim C6, counterexample: png to webp is a registered pair with a
non-mp3 target, yet supplying the irrelevant `bitrate` parameter is not
ignored: the dispatch forwards it to `ImageConverter.convert`, which
rejects it with a `TypeError`, changing the outcome from success to an
uncaught exception. -/
theorem params_bitrate_image_rejected :
    FileConverter.convert ⟨"a.png"⟩ "webp" [(.bitrate, .vstr "192k")] =
      .error (.typeError .bitrate)
    ∧ FileConverter.convert ⟨"a.png"⟩ "webp" [] = .ok ⟨.imageConvert "webp", []⟩
    ∧ FileConverter.convert ⟨"a.png"⟩ "webp" [(.bitrate, .vstr "192k")] ≠
        FileConverter.convert ⟨"a.png"⟩ "webp" [] := by
  refine ⟨rfl, rfl, ?_⟩
  intro heq
  rw [show FileConverter.convert ⟨"a.png"⟩ "webp" [(.bitrate, .vstr "192k")] =
        .error (.typeError .bitrate) from rfl,
      show FileConverter.convert ⟨"a.png"⟩ "webp" [] =
        .ok ⟨.imageConvert "webp", []⟩ from rfl] at heq
  simp at heq

/-- Claim C6, amended: the data, document and audio dispatch lambdas
discard every keyword parameter, so for those registered pairs all
supplied parameters (width, height, quality, and also bitrate, even for
mp3 targets) are ignored and the converter is entered with no keyword
arguments regardless of what was supplied; the image lambdas instead
forward the whole parameter set, so a parameter set within the
`ImageConverter.convert` signature is passed through verbatim and a
parameter outside it (such as bitrate) raises a `TypeError` instead of
being ignored. -/
theorem convert_param_handling (p : PyPath) (output_format : String)
    (e : RegEntry) (kw : Kwargs)
    (h : CONVERSIONS.lookup (p.ext, pyLower output_format) = some e) :
    (∀ c, e = RegEntry.plain c →
        FileConverter.convert p output_format kw = .ok ⟨c, []⟩)
    ∧ (∀ fmt, e = RegEntry.image fmt →
        ((∀ q ∈ kw, q.1 ∈ imageAccepted) →
            FileConverter.convert p output_format kw = .ok ⟨.imageConvert fmt, kw⟩)
        ∧ (∀ q0, kw.find? (fun q => !(imageAccepted.contains q.1)) = some q0 →
            FileConverter.convert p output_format kw = .error (.typeError q0.1))) := by
  have hconv : FileConverter.convert p output_format kw = applyEntry e kw := by
    unfold FileConverter.convert
    rw [h]
  constructor
  · intro c hc
    subst hc
    rw [hconv]
    rfl
  · intro fmt hf
    subst hf
    constructor
    · intro hall
      have hfind : kw.find? (fun q => !(imageAccepted.contains q.1)) = none := by
        rw [List.find?_eq_none]
        intro q hq
        have hmem := hall q hq
        revert hmem
        cases q.1 <;> decide
      rw [hconv]
      show (match kw.find? (fun q => !(imageAccepted.contains q.1)) with
            | some q => (Except.error (PyErr.typeError q.1) : Except PyErr Invocation)
            | none => Except.ok ⟨.imageConvert fmt, kw⟩) = _
      rw [hfind]
    · intro q0 hq0
      rw [hconv]
      show (match kw.find? (fun q => !(imageAccepted.contains q.1)) with
            | some q => (Except.error (PyErr.typeError q.1) : Except PyErr Invocation)
            | none => Except.ok ⟨.imageConvert fmt, kw⟩) = _
      rw [hq0]

/-- Witness for C6 amended: a data conversion entered with no keyword
arguments although quality was supplied, and an image conversion
receiving its declared parameters verbatim. -/
theorem convert_param_handling_witness :
    FileConverter.convert ⟨"a.csv"⟩ "json" [(.quality, .vint 85)] = .ok ⟨.csvToJson, []⟩
    ∧ FileConverter.convert ⟨"a.png"⟩ "webp" [(.width, .vint 100)] =
        .ok ⟨.imageConvert "webp", [(.width, .vint 100)]⟩ := by
  constructor
  · exact (convert_param_handling ⟨"a.csv"⟩ "json" (.plain .csvToJson)
      [(.quality, .vint 85)] (by decide)).1 .csvToJson rfl
  · exact ((convert_param_handling ⟨"a.png"⟩ "webp" (.image "webp")
      [(.width, .vint 100)] (by decide)).2 "webp" rfl).1 (by decide)

/-- Claim C5: a quality value outside [1,100] makes the `/convert`
endpoint fail with the `InvalidParameter` validation error for every
request, before the size check, the registry lookup and any converter
invocation, decode or encode work. -/
theorem quality_validated_before_conversion (uuid4 filename : String)
    (content_size : Nat) (output_format : String)
    (width height : Option Int) (quality : Int)
    (h : quality < 1 ∨ 100 < quality) :
    convert_file uuid4 filename content_size output_format width height quality =
      .error (.invalidParameter "quality") := by
  unfold convert_file
  rw [if_pos h]

/-- Witness for C5 at quality 150 on a request that would otherwise be
a perfectly supported png to jpg conversion. -/
theorem quality_validated_before_conversion_witness :
    convert_file "u" "photo.png" 100 "jpg" none none 150 =
      .error (.invalidParameter "quality") :=
  quality_validated_before_conversion "u" "photo.png" 100 "jpg" none none 150
    (Or.inr (by norm_num))

/-- Claim C7: with the relevant capability absent, text-to-PDF and
markdown-to-PDF fail with the `ConversionError` naming WeasyPrint,
audio conversion fails immediately with the `ConversionError` naming
pydub, and audio introspection returns an error status naming pydub
instead of raising. -/
theorem capability_unavailable_behavior (text : String) (decoded : Option AudioSeg)
    (output_format bitrate : String) (size_bytes : Nat) :
    DocumentConverter.txt_to_pdf false text =
      .error (.capabilityUnavailable "WeasyPrint")
    ∧ DocumentConverter.markdown_to_pdf false text =
      .error (.capabilityUnavailable "WeasyPrint")
    ∧ AudioConverter.convert false decoded output_format bitrate =
      .error (.capabilityUnavailable "pydub")
    ∧ AudioConverter.get_info false decoded size_bytes =
      .errorStatus "pydub is not installed" :=
  ⟨rfl, rfl, rfl, rfl⟩

/-- Claim C3, counterexample: on a 4 by 2 source with width 3, height 3
and aspect preserved, the scale is 3/4; the code computes heights with
`int(...)`, which truncates 2 * 3/4 = 1.5 down to 1, while the claimed
round-to-nearest gives 2, so the claimed output formula fails here. -/
theorem resize_truncates_not_rounds :
    resizeDims 4 2 (some 3) (some 3) true = (3, 1)
    ∧ (round ((4 : ℚ) * min ((3 : ℚ) / 4) ((3 : ℚ) / 2)),
       round ((2 : ℚ) * min ((3 : ℚ) / 4) ((3 : ℚ) / 2))) = ((3 : ℤ), (2 : ℤ))
    ∧ (resizeDims 4 2 (some 3) (some 3) true).2 ≠
        round ((2 : ℚ) * min ((3 : ℚ) / 4) ((3 : ℚ) / 2)) := by
  have hmin : min ((3 : ℚ) / 4) ((3 : ℚ) / 2) = 3 / 4 := by
    rw [min_eq_left]
    norm_num
  have h1 : resizeDims 4 2 (some 3) (some 3) true = (3, 1) := by
    norm_num [resizeDims, pyInt, truthyInt, hmin]
  have h2 : round ((2 : ℚ) * min ((3 : ℚ) / 4) ((3 : ℚ) / 2)) = 2 := by
    rw [hmin]
    norm_num [round_eq]
  have h3 : round ((4 : ℚ) * min ((3 : ℚ) / 4) ((3 : ℚ) / 2)) = 3 := by
    rw [hmin]
    norm_num [round_eq]
  refine ⟨h1, by rw [h2, h3], ?_⟩
  rw [h1, h2]
  decide

/-- Claim C3, amended: with aspect preserved and both bounds given, the
output dimensions are the original dimensions scaled by
`min(width/origW, height/origH)` and truncated toward zero (not rounded
to nearest), which still never exceeds either bound; with one dimension
given, that dimension is used verbatim and the other is scaled from it
and truncated; the concrete 200 by 400 example with bounds 100 by 100
yields (50, 100) as claimed. -/
theorem resize_fit_inside_truncating (ow oh w h : Int)
    (how : 0 < ow) (hoh : 0 < oh) (hw : 0 < w) (hh : 0 < h) :
    (resizeDims ow oh (some w) (some h) true =
        (⌊(ow : ℚ) * min ((w : ℚ) / (ow : ℚ)) ((h : ℚ) / (oh : ℚ))⌋,
         ⌊(oh : ℚ) * min ((w : ℚ) / (ow : ℚ)) ((h : ℚ) / (oh : ℚ))⌋))
    ∧ (resizeDims ow oh (some w) (some h) true).1 ≤ w
    ∧ (resizeDims ow oh (some w) (some h) true).2 ≤ h
    ∧ resizeDims ow oh (some w) none true = (w, ⌊(oh : ℚ) * ((w : ℚ) / (ow : ℚ))⌋)
    ∧ resizeDims ow oh none (some h) true = (⌊(ow : ℚ) * ((h : ℚ) / (oh : ℚ))⌋, h)
    ∧ resizeDims 200 400 (some 100) (some 100) true = (50, 100) := by
  have howq : (0 : ℚ) < (ow : ℚ) := by exact_mod_cast how
  have hohq : (0 : ℚ) < (oh : ℚ) := by exact_mod_cast hoh
  have hwq : (0 : ℚ) ≤ (w : ℚ) := by exact_mod_cast hw.le
  have hhq : (0 : ℚ) ≤ (h : ℚ) := by exact_mod_cast hh.le
  have hpy : ∀ q : ℚ, 0 ≤ q → pyInt q = ⌊q⌋ := by
    intro q hq
    simp [pyInt, not_lt.2 hq]
  have hwt : truthyInt (some w) = true := by
    simp only [truthyInt, bne_iff_ne, ne_eq, decide_eq_true_eq]
    omega
  have hht : truthyInt (some h) = true := by
    simp only [truthyInt, bne_iff_ne, ne_eq, decide_eq_true_eq]
    omega
  have hw0 : (w != 0) = true := by
    simp only [bne_iff_ne, ne_eq, decide_eq_true_eq]
    omega
  have hh0 : (h != 0) = true := by
    simp only [bne_iff_ne, ne_eq, decide_eq_true_eq]
    omega
  have hrnn : 0 ≤ min ((w : ℚ) / (ow : ℚ)) ((h : ℚ) / (oh : ℚ)) :=
    le_min (div_nonneg hwq howq.le) (div_nonneg hhq hohq.le)
  have hboth : resizeDims ow oh (some w) (some h) true =
      (⌊(ow : ℚ) * min ((w : ℚ) / (ow : ℚ)) ((h : ℚ) / (oh : ℚ))⌋,
       ⌊(oh : ℚ) * min ((w : ℚ) / (ow : ℚ)) ((h : ℚ) / (oh : ℚ))⌋) := by
    simp only [resizeDims, hwt, hht, Bool.and_self, if_true, Option.getD_some]
    rw [hpy _ (mul_nonneg howq.le hrnn), hpy _ (mul_nonneg hohq.le hrnn)]
  have hcw : (ow : ℚ) * ((w : ℚ) / (ow : ℚ)) = (w : ℚ) := by
    field_simp
  have hch : (oh : ℚ) * ((h : ℚ) / (oh : ℚ)) = (h : ℚ) := by
    field_simp
  refine ⟨hboth, ?_, ?_, ?_, ?_, ?_⟩
  · rw [hboth]
    calc ⌊(ow : ℚ) * min ((w : ℚ) / (ow : ℚ)) ((h : ℚ) / (oh : ℚ))⌋
        ≤ ⌊(ow : ℚ) * ((w : ℚ) / (ow : ℚ))⌋ :=
          Int.floor_le_floor (mul_le_mul_of_nonneg_left (min_le_left _ _) howq.le)
      _ = w := by rw [hcw, Int.floor_intCast]
  · rw [hboth]
    calc ⌊(oh : ℚ) * min ((w : ℚ) / (ow : ℚ)) ((h : ℚ) / (oh : ℚ))⌋
        ≤ ⌊(oh : ℚ) * ((h : ℚ) / (oh : ℚ))⌋ :=
          Int.floor_le_floor (mul_le_mul_of_nonneg_left (min_le_right _ _) hohq.le)
      _ = h := by rw [hch, Int.floor_intCast]
  · have hred : resizeDims ow oh (some w) none true =
        (w, pyInt ((oh : ℚ) * ((w : ℚ) / (ow : ℚ)))) := by
      simp [resizeDims, truthyInt, hw0]
    rw [hred, hpy _ (mul_nonneg hohq.le (div_nonneg hwq howq.le))]
  · have hred : resizeDims ow oh none (some h) true =
        (pyInt ((ow : ℚ) * ((h : ℚ) / (oh : ℚ))), h) := by
      simp [resizeDims, truthyInt, hh0]
    rw [hred, hpy _ (mul_nonneg howq.le (div_nonneg hhq hohq.le))]
  · have hmin : min ((100 : ℚ) / 200) ((100 : ℚ) / 400) = 1 / 4 := by
      rw [min_eq_right] <;> norm_num
    norm_num [resizeDims, pyInt, truthyInt, hmin]

/-- Witness for C3 amended at the 200 by 400 source of the spec. -/
theorem resize_fit_inside_truncating_witness :
    resizeDims 200 400 (some 100) (some 100) true = (50, 100) :=
  (resize_fit_inside_truncating 200 400 100 100 (by norm_num) (by norm_num)
    (by norm_num) (by norm_num)).2.2.2.2.2

/-- Auxiliary: the flatten branch always yields an RGB image. -/
theorem jpegFlatten_mode (img : PImage)
    (hm : img.mode = .RGBA ∨ img.mode = .LA ∨ img.mode = .P) :
    (jpegFlatten img).mode = .RGB := by
  unfold jpegFlatten
  rw [if_pos hm]
  rfl

/-- Auxiliary: for RGBA and P sources the flatten branch composites each
pixel onto opaque white through the alpha mask. -/
theorem jpegFlatten_px_alpha (img : PImage)
    (hm : img.mode = .RGBA ∨ img.mode = .P) :
    ∀ x y, (jpegFlatten img).px x y = compositeOnWhite (img.px x y) := by
  intro x y
  rcases hm with hm | hm
  · unfold jpegFlatten
    rw [if_pos (Or.inl hm), hm]
    simp [PImage.paste, PImage.new, PImage.convertRGBA, alphaBand, compositeOnWhite, whitePix, hm]
  · unfold jpegFlatten
    rw [if_pos (Or.inr (Or.inr hm)), hm]
    simp [PImage.paste, PImage.new, PImage.convertRGBA, alphaBand, compositeOnWhite, whitePix]

/-- Auxiliary: for LA sources the flatten branch pastes without a mask,
so the alpha channel is discarded rather than composited. -/
theorem jpegFlatten_px_la (img : PImage) (hm : img.mode = .LA) :
    ∀ x y, (jpegFlatten img).px x y = (img.px x y).toOpaqueRGB := by
  intro x y
  unfold jpegFlatten
  rw [if_pos (Or.inr (Or.inl hm))]
  simp [hm, PImage.paste, PImage.new, PImage.convertRGBA]

/-- Claim C4, counterexample: a fully transparent black LA pixel is
pasted without a mask, so the output pixel is opaque black where
alpha-compositing onto white would give white: the LA case of the claim
drops the alpha instead of flattening onto the white background. -/
theorem jpeg_la_alpha_dropped :
    (ImageConverter.convert ⟨.LA, 1, 1, fun _ _ => ⟨0, 0, 0, 0⟩⟩ "jpeg"
        none none 85 true).toOption.map (fun r => r.1.px 0 0) = some ⟨0, 0, 0, 255⟩
    ∧ compositeOnWhite ⟨0, 0, 0, 0⟩ = ⟨255, 255, 255, 255⟩
    ∧ (⟨0, 0, 0, 255⟩ : Pix) ≠ ⟨255, 255, 255, 255⟩ :=
  ⟨rfl, rfl, by decide⟩

/-- Claim C4, amended: for a jpeg target and a source of mode RGBA, LA
or P the flatten branch runs and produces an opaque RGB image, so the
encode step never fails: every successful outcome is an opaque RGB
image with the jpeg MIME type, and the only possible failure is the
wrapped Pillow resize ValueError for a computed dimension below 1,
never an encode error.  Without a resize request the conversion always
succeeds; RGBA and P sources are then alpha-composited onto opaque
white pixel by pixel, while LA sources have their alpha discarded by
the maskless paste; in every case the result is fully opaque. -/
theorem jpeg_flatten_behavior (img : PImage) (w h : Option Int) (q : Int) (k : Bool)
    (hm : img.mode = .RGBA ∨ img.mode = .LA ∨ img.mode = .P) :
    (∀ out mime, ImageConverter.convert img "jpeg" w h q k = .ok (out, mime) →
        mime = "image/jpeg" ∧ out.mode = .RGB)
    ∧ (∀ e, ImageConverter.convert img "jpeg" w h q k = .error e →
        e = .wrapped "height and width must be greater than 0")
    ∧ (w = none → h = none →
        ∃ out, ImageConverter.convert img "jpeg" w h q k = .ok (out, "image/jpeg")
          ∧ out.mode = .RGB
          ∧ (((img.mode = .RGBA ∨ img.mode = .P) →
              ∀ x y, out.px x y = compositeOnWhite (img.px x y))
           ∧ (img.mode = .LA → ∀ x y, out.px x y = (img.px x y).toOpaqueRGB)
           ∧ ∀ x y, (out.px x y).a = 255)) := by
  have hmode := jpegFlatten_mode img hm
  have e1 : pyLower "jpeg" = "jpeg" := rfl
  have e2 : List.lookup "jpeg" imageMimeTypes = some "image/jpeg" := rfl
  by_cases hb : (truthyInt w || truthyInt h) = true
  · have hred : ImageConverter.convert img "jpeg" w h q k =
        (match resizeChecked (jpegFlatten img) w h k with
         | .error e => .error e
         | .ok img2 =>
           if jpegEncodable img2.mode = false then
             Except.error (ConvError.wrapped "cannot write this mode as JPEG")
           else Except.ok (img2, "image/jpeg")) := by
      simp [ImageConverter.convert, e1, e2, hb, imageFormats]
    rcases hres : resizeChecked (jpegFlatten img) w h k with e0 | img2
    · have herr : ImageConverter.convert img "jpeg" w h q k = .error e0 := by
        rw [hred, hres]
      have he0 : e0 = .wrapped "height and width must be greater than 0" := by
        simp only [resizeChecked] at hres
        split at hres
        · injection hres with h1
          exact h1.symm
        · cases hres
      refine ⟨?_, ?_, ?_⟩
      · intro out mime hok
        rw [herr] at hok
        cases hok
      · intro e he
        rw [herr] at he
        injection he with h1
        rw [← h1, he0]
      · intro hwn hhn
        subst hwn
        subst hhn
        simp [truthyInt] at hb
    · have hmode2 : img2.mode = PMode.RGB := by
        simp only [resizeChecked] at hres
        split at hres
        · cases hres
        · injection hres with h1
          rw [← h1]
          exact hmode
      have hok : ImageConverter.convert img "jpeg" w h q k = .ok (img2, "image/jpeg") := by
        rw [hred, hres]
        simp [jpegEncodable, hmode2]
      refine ⟨?_, ?_, ?_⟩
      · intro out mime hok2
        rw [hok] at hok2
        injection hok2 with h1
        injection h1 with h2 h3
        subst h2
        exact ⟨h3.symm, hmode2⟩
      · intro e he
        rw [hok] at he
        cases he
      · intro hwn hhn
        subst hwn
        subst hhn
        simp [truthyInt] at hb
  · have e3 : jpegEncodable (jpegFlatten img).mode = true := by
      simp [hmode, jpegEncodable]
    rw [Bool.not_eq_true] at hb
    have hok : ImageConverter.convert img "jpeg" w h q k
        = .ok (jpegFlatten img, "image/jpeg") := by
      simp [ImageConverter.convert, e1, e2, e3, hb, imageFormats]
    refine ⟨?_, ?_, ?_⟩
    · intro out mime hok2
      rw [hok] at hok2
      injection hok2 with h1
      injection h1 with h2 h3
      subst h2
      exact ⟨h3.symm, hmode⟩
    · intro e he
      rw [hok] at he
      cases he
    · intro hwn hhn
      refine ⟨jpegFlatten img, hok, hmode,
        fun hrgba => jpegFlatten_px_alpha img hrgba,
        fun hla => jpegFlatten_px_la img hla, ?_⟩
      intro x y
      rcases hm with h1 | h1 | h1
      · rw [jpegFlatten_px_alpha img (Or.inl h1) x y]
        rfl
      · rw [jpegFlatten_px_la img h1 x y]
        rfl
      · rw [jpegFlatten_px_alpha img (Or.inr h1) x y]
        rfl

/-- Witness for C4 amended on a one-pixel transparent RGBA source with
no resize requested. -/
theorem jpeg_flatten_behavior_witness :
    ∃ out, ImageConverter.convert ⟨.RGBA, 1, 1, fun _ _ => ⟨10, 20, 30, 0⟩⟩ "jpeg"
        none none 85 true = .ok (out, "image/jpeg")
      ∧ out.mode = .RGB
      ∧ (((PImage.mode ⟨.RGBA, 1, 1, fun _ _ => ⟨10, 20, 30, 0⟩⟩ = .RGBA
            ∨ PImage.mode ⟨.RGBA, 1, 1, fun _ _ => ⟨10, 20, 30, 0⟩⟩ = .P) →
            ∀ x y, out.px x y =
              compositeOnWhite (PImage.px ⟨.RGBA, 1, 1, fun _ _ => ⟨10, 20, 30, 0⟩⟩ x y))
         ∧ (PImage.mode ⟨.RGBA, 1, 1, fun _ _ => ⟨10, 20, 30, 0⟩⟩ = .LA →
            ∀ x y, out.px x y =
              Pix.toOpaqueRGB (PImage.px ⟨.RGBA, 1, 1, fun _ _ => ⟨10, 20, 30, 0⟩⟩ x y))
         ∧ ∀ x y, (out.px x y).a = 255) :=
  (jpeg_flatten_behavior ⟨.RGBA, 1, 1, fun _ _ => ⟨10, 20, 30, 0⟩⟩ none none 85 true
    (Or.inl rfl)).2.2 rfl rfl

namespace DataConv

theorem natDigitsFuel_eq (fuel n : Nat) (h : n ≤ fuel) :
    natDigitsFuel fuel n = Nat.digits 10 n := by
  induction fuel generalizing n with
  | zero =>
    interval_cases n
    simp [natDigitsFuel]
  | succ fuel ih =>
    cases n with
    | zero => simp [natDigitsFuel]
    | succ n =>
      rw [Nat.digits_def' (by norm_num : (1 : ℕ) < 10) (Nat.succ_pos n)]
      rw [natDigitsFuel]
      congr 1
      have hlt : (n + 1) / 10 < n + 1 := Nat.div_lt_self (Nat.succ_pos n) (by norm_num)
      exact ih _ (by omega)

theorem digitChar_toNat (d : Nat) (h : d < 10) : (Char.ofNat (48 + d)).toNat = 48 + d := by
  interval_cases d <;> decide

theorem digitChar_isDigit (d : Nat) (h : d < 10) : (Char.ofNat (48 + d)).isDigit = true := by
  interval_cases d <;> decide

theorem parseNatDigits_append (xs : List Char) (c : Char) :
    parseNatDigits (xs ++ [c]) = parseNatDigits xs * 10 + (c.toNat - 48) := by
  unfold parseNatDigits
  rw [List.foldl_append]
  rfl

theorem parseNatDigits_rev_digits (ds : List Nat) (h : ∀ d ∈ ds, d < 10) :
    parseNatDigits ((ds.map (fun d => Char.ofNat (48 + d))).reverse) = Nat.ofDigits 10 ds := by
  induction ds with
  | nil => rfl
  | cons d t ih =>
    rw [List.map_cons, List.reverse_cons, parseNatDigits_append]
    rw [ih (fun x hx => h x (List.mem_cons_of_mem d hx))]
    rw [digitChar_toNat d (h d (List.mem_cons_self d t))]
    rw [Nat.ofDigits_cons]
    omega

theorem parseNatDigits_natDecimal (n : Nat) : parseNatDigits (natDecimal n) = n := by
  unfold natDecimal
  by_cases h : n = 0
  · subst h
    rfl
  · rw [if_neg h, natDigitsFuel_eq n n le_rfl,
        parseNatDigits_rev_digits _ (fun d hd => Nat.digits_lt_base (by norm_num) hd),
        Nat.ofDigits_digits]

theorem natDecimal_all_digit (n : Nat) : ∀ c ∈ natDecimal n, c.isDigit = true := by
  unfold natDecimal
  by_cases h : n = 0
  · subst h
    intro c hc
    simp at hc
    subst hc
    decide
  · rw [if_neg h]
    intro c hc
    rw [List.mem_reverse] at hc
    obtain ⟨d, hd, rfl⟩ := List.mem_map.1 hc
    rw [natDigitsFuel_eq n n le_rfl] at hd
    exact digitChar_isDigit d (Nat.digits_lt_base (by norm_num) hd)

theorem natDecimal_ne_nil (n : Nat) : natDecimal n ≠ [] := by
  unfold natDecimal
  by_cases h : n = 0
  · simp [h]
  · rw [if_neg h]
    simp only [ne_eq, List.reverse_eq_nil_iff, List.map_eq_nil_iff]
    rw [natDigitsFuel_eq n n le_rfl]
    exact Nat.digits_ne_nil_iff_ne_zero.2 h

theorem isDigit_ne_minus (c : Char) (h : c.isDigit = true) : c ≠ '-' := by
  intro hc
  subst hc
  simp at h

end DataConv

namespace DataConv

theorem intDecimal_ne_nil (m : Int) : intDecimal m ≠ [] := by
  unfold intDecimal
  by_cases h : m < 0
  · simp [h]
  · rw [if_neg h]
    exact natDecimal_ne_nil m.toNat

theorem intDecimal_roundtrip (m : Int) :
    isIntLit (intDecimal m) = true ∧ parseIntLit (intDecimal m) = m := by
  unfold intDecimal
  by_cases h : m < 0
  · rw [if_pos h]
    constructor
    · unfold isIntLit
      simp only [List.head?_cons]
      rw [if_pos trivial]
      simp only [List.drop_one, List.tail_cons, Bool.and_eq_true, Bool.not_eq_true']
      refine ⟨?_, ?_⟩
      · rw [List.isEmpty_eq_false]
        exact natDecimal_ne_nil m.natAbs
      · rw [List.all_eq_true]
        exact fun c hc => natDecimal_all_digit m.natAbs c hc
    · unfold parseIntLit
      simp only [List.head?_cons]
      rw [if_pos trivial]
      simp only [List.drop_one, List.tail_cons]
      rw [parseNatDigits_natDecimal]
      omega
  · rw [if_neg h]
    have hhead : (natDecimal m.toNat).head? ≠ some '-' := by
      rcases hnd : natDecimal m.toNat with _ | ⟨c, rest⟩
      · exact absurd hnd (natDecimal_ne_nil m.toNat)
      · simp only [List.head?_cons, ne_eq, Option.some.injEq]
        intro hc
        exact isDigit_ne_minus c (natDecimal_all_digit m.toNat c (by rw [hnd]; exact List.mem_cons_self c rest)) hc
    constructor
    · unfold isIntLit
      rw [if_neg hhead]
      simp only [Bool.and_eq_true, Bool.not_eq_true']
      refine ⟨?_, ?_⟩
      · rw [List.isEmpty_eq_false]
        exact natDecimal_ne_nil m.toNat
      · rw [List.all_eq_true]
        exact fun c hc => natDecimal_all_digit m.toNat c hc
    · unfold parseIntLit
      rw [if_neg hhead, parseNatDigits_natDecimal]
      omega

theorem render_infer_roundtrip (s : String) :
    inferCell (renderVal (inferCell s)) = inferCell s := by
  by_cases h0 : s = ""
  · simp [h0, inferCell, renderVal]
  · by_cases hint : isIntLit s.toList = true
    · rw [show inferCell s = .jint (parseIntLit s.toList) by
        unfold inferCell
        rw [if_neg h0, if_pos hint]]
      set m := parseIntLit s.toList with hm
      obtain ⟨hlit, hparse⟩ := intDecimal_roundtrip m
      show inferCell (String.mk (intDecimal m)) = _
      unfold inferCell
      rw [if_neg (by
        intro hh
        rw [String.ext_iff] at hh
        exact intDecimal_ne_nil m (by simpa using hh))]
      rw [show (String.mk (intDecimal m)).toList = intDecimal m from rfl]
      rw [if_pos hlit, hparse]
    · rw [show inferCell s = .jstr s by
        unfold inferCell
        rw [if_neg h0, if_neg hint]]
      show inferCell s = _
      unfold inferCell
      rw [if_neg h0, if_neg hint]

end DataConv

namespace DataConv

theorem goodChar_of_isDigit (c : Char) (h : c.isDigit = true) :
    ([',', '\n', '\r', '"', '\t'].contains c) = false := by
  cases hc : ([',', '\n', '\r', '"', '\t'].contains c) with
  | false => rfl
  | true =>
    exfalso
    have hmem : c ∈ [',', '\n', '\r', '"', '\t'] := by simpa using hc
    fin_cases hmem <;> simp_all

theorem intDecimal_chars (m : Int) (c : Char) (hc : c ∈ intDecimal m) :
    c = '-' ∨ c.isDigit = true := by
  unfold intDecimal at hc
  by_cases h : m < 0
  · rw [if_pos h] at hc
    rcases List.mem_cons.1 hc with rfl | hmem
    · exact Or.inl rfl
    · exact Or.inr (natDecimal_all_digit _ c hmem)
  · rw [if_neg h] at hc
    exact Or.inr (natDecimal_all_digit _ c hc)

theorem renderVal_infer_good (s : String) (hg : goodCell s = true) :
    goodCell (renderVal (inferCell s)) = true := by
  unfold inferCell
  by_cases h0 : s = ""
  · rw [if_pos h0]
    decide
  · rw [if_neg h0]
    by_cases hint : isIntLit s.toList = true
    · rw [if_pos hint]
      show goodCell (String.mk (intDecimal (parseIntLit s.toList))) = true
      unfold goodCell
      rw [List.all_eq_true]
      intro c hc
      rcases intDecimal_chars _ c hc with rfl | hdig
      · decide
      · rw [Bool.not_eq_true']
        exact goodChar_of_isDigit c hdig
    · rw [if_neg hint]
      exact hg

theorem renderVal_infer_ne_empty (s : String) (h0 : s ≠ "") :
    renderVal (inferCell s) ≠ "" := by
  unfold inferCell
  rw [if_neg h0]
  by_cases hint : isIntLit s.toList = true
  · rw [if_pos hint]
    show String.mk (intDecimal (parseIntLit s.toList)) ≠ ""
    intro hh
    rw [String.ext_iff] at hh
    exact intDecimal_ne_nil _ (by simpa using hh)
  · rw [if_neg hint]
    exact h0

theorem splitOn_joinComma (ls : List String) (hne : ls ≠ [])
    (hsep : ∀ s ∈ ls, ',' ∉ s.toList) :
    (joinComma ls).splitOn ',' = ls.map String.toList := by
  induction ls with
  | nil => exact absurd rfl hne
  | cons c rest ih =>
    cases rest with
    | nil =>
      show (c.toList).splitOnP (· == ',') = [c.toList]
      apply List.splitOnP_eq_single
      intro x hx hbeq
      rw [beq_iff_eq] at hbeq
      exact hsep c (List.mem_cons_self c []) (hbeq ▸ hx)
    | cons d rest2 =>
      have h1 : ∀ x ∈ c.toList, ¬((x == ',') = true) := by
        intro x hx hbeq
        rw [beq_iff_eq] at hbeq
        exact hsep c (List.mem_cons_self c (d :: rest2)) (hbeq ▸ hx)
      show (c.toList ++ ',' :: joinComma (d :: rest2)).splitOnP (· == ',') = _
      rw [List.splitOnP_first _ _ h1 ',' (by simp) (joinComma (d :: rest2))]
      rw [List.map_cons]
      congr 1
      exact ih (by simp) (fun s hs => hsep s (List.mem_cons_of_mem c hs))

theorem splitOn_joinLines (ls : List (List Char)) (hne : ls ≠ [])
    (hsep : ∀ l ∈ ls, '\n' ∉ l) :
    (joinLines ls).splitOn '\n' = ls := by
  induction ls with
  | nil => exact absurd rfl hne
  | cons c rest ih =>
    cases rest with
    | nil =>
      show c.splitOnP (· == '\n') = [c]
      apply List.splitOnP_eq_single
      intro x hx hbeq
      rw [beq_iff_eq] at hbeq
      exact hsep c (List.mem_cons_self c []) (hbeq ▸ hx)
    | cons d rest2 =>
      have h1 : ∀ x ∈ c, ¬((x == '\n') = true) := by
        intro x hx hbeq
        rw [beq_iff_eq] at hbeq
        exact hsep c (List.mem_cons_self c (d :: rest2)) (hbeq ▸ hx)
      show (c ++ '\n' :: joinLines (d :: rest2)).splitOnP (· == '\n') = _
      rw [List.splitOnP_first _ _ h1 '\n' (by simp) (joinLines (d :: rest2))]
      congr 1
      exact ih (by simp) (fun l hl => hsep l (List.mem_cons_of_mem c hl))

theorem splitOn_terminateLines (ls : List (List Char))
    (hsep : ∀ l ∈ ls, '\n' ∉ l) :
    (terminateLines ls).splitOn '\n' = ls ++ [[]] := by
  induction ls with
  | nil =>
    show ([] : List Char).splitOnP (· == '\n') = [[]]
    rfl
  | cons c rest ih =>
    have h1 : ∀ x ∈ c, ¬((x == '\n') = true) := by
      intro x hx hbeq
      rw [beq_iff_eq] at hbeq
      exact hsep c (List.mem_cons_self c rest) (hbeq ▸ hx)
    have hterm : terminateLines (c :: rest) = c ++ '\n' :: terminateLines rest := by
      simp [terminateLines]
    rw [hterm]
    show (c ++ '\n' :: terminateLines rest).splitOnP (· == '\n') = _
    rw [List.splitOnP_first _ _ h1 '\n' (by simp) (terminateLines rest)]
    rw [List.cons_append]
    congr 1
    exact ih (fun l hl => hsep l (List.mem_cons_of_mem c hl))

end DataConv

namespace DataConv

theorem map_recordGet_zip (ks : List String) (vs : List JVal)
    (hnd : ks.Nodup) (hlen : vs.length = ks.length) :
    ks.map (fun k => recordGet (ks.zip vs) k) = vs := by
  induction ks generalizing vs with
  | nil =>
    cases vs with
    | nil => rfl
    | cons v t => simp at hlen
  | cons k kt ih =>
    cases vs with
    | nil => simp at hlen
    | cons v vt =>
      rw [List.zip_cons_cons, List.map_cons]
      have hhead : recordGet ((k, v) :: kt.zip vt) k = v := by
        unfold recordGet
        rw [List.find?_cons_of_pos _ (by simp)]
        rfl
      rw [hhead]
      congr 1
      have hk_not : k ∉ kt := (List.nodup_cons.1 hnd).1
      have hpoint : ∀ k2 ∈ kt, recordGet ((k, v) :: kt.zip vt) k2 = recordGet (kt.zip vt) k2 := by
        intro k2 hk2
        unfold recordGet
        rw [List.find?_cons_of_neg _ (by
          simp only [decide_eq_true_eq]
          intro hq
          exact hk_not (hq ▸ hk2))]
      rw [List.map_congr_left hpoint]
      exact ih vt (List.nodup_cons.1 hnd).2 (by simpa using hlen)

theorem foldl_dfColumns_fixed (hdr : List String) (l : List JRecord)
    (hkeys : ∀ r ∈ l, ∀ k ∈ r.map Prod.fst, k ∈ hdr) :
    l.foldl (fun acc r => acc ++ ((r.map Prod.fst).filter (fun k => !acc.contains k))) hdr
      = hdr := by
  induction l with
  | nil => rfl
  | cons r rt ih =>
    rw [List.foldl_cons]
    have hfil : (r.map Prod.fst).filter (fun k => !hdr.contains k) = [] := by
      rw [List.filter_eq_nil_iff]
      intro k hk
      have hmem := hkeys r (List.mem_cons_self r rt) k hk
      simp [hmem]
    rw [hfil, List.append_nil]
    exact ih (fun r2 h2 => hkeys r2 (List.mem_cons_of_mem r h2))

theorem dfColumns_const (hdr : List String) (records : List JRecord)
    (hkeys : ∀ r ∈ records, r.map Prod.fst = hdr) (hne : records ≠ []) :
    dfColumns records = hdr := by
  cases records with
  | nil => exact absurd rfl hne
  | cons r rt =>
    unfold dfColumns
    rw [List.foldl_cons]
    have h1 : (([] : List String) ++ ((r.map Prod.fst).filter
        (fun k => !([] : List String).contains k))) = hdr := by
      rw [List.nil_append, hkeys r (List.mem_cons_self r rt)]
      simp
    rw [h1]
    exact foldl_dfColumns_fixed hdr rt (fun r2 h2 k hk => by
      rw [hkeys r2 (List.mem_cons_of_mem r h2)] at hk
      exact hk)

end DataConv

/-- Auxiliary: the object equation of `dict_to_xml`. -/
theorem jsonToXmlElem_obj (tag : String) (kvs : List (String × Json)) :
    jsonToXmlElem tag (.jobj kvs) =
      .mk tag none (kvs.map (fun kv => jsonToXmlElem (underscoreKey kv.1) kv.2)) := by
  rw [jsonToXmlElem]
  congr 1
  exact List.attach_map_val kvs (fun kv => jsonToXmlElem (underscoreKey kv.1) kv.2)

/-- Auxiliary: the scalar equation of `dict_to_xml`. -/
theorem jsonToXmlElem_scalar (tag : String) (v : Json) (hs : jsonScalar v = true) :
    jsonToXmlElem tag v = .mk tag (some (pyStr v)) [] := by
  cases v with
  | jarr xs => simp [jsonScalar] at hs
  | jobj kvs => simp [jsonScalar] at hs
  | jnull => rw [jsonToXmlElem] <;> simp
  | jbool b => rw [jsonToXmlElem] <;> simp
  | jint n => rw [jsonToXmlElem] <;> simp
  | jstr s => rw [jsonToXmlElem] <;> simp

/-- Auxiliary: pretty-printing and re-parsing an element with children. -/
theorem reparse_node (tag : String) (txt : Option String) (c : XElem) (cs : List XElem) :
    reparse (.mk tag txt (c :: cs)) =
      .mk tag (some prettyWs) ((c :: cs).map reparse) := by
  rw [reparse]
  congr 1
  exact List.attach_map_val (c :: cs) reparse

/-- Auxiliary: pretty-printing and re-parsing a leaf element keeps
nonempty text up to end-of-line normalization and collapses empty text
to an absent text node. -/
theorem reparse_leaf (tag : String) (txt : Option String) :
    reparse (.mk tag txt []) =
      .mk tag (match txt with
               | some t => if t = "" then none else some (normalizeEol t)
               | none => none) [] := by
  rw [reparse.eq_def]

/-- Auxiliary: end-of-line normalization is the identity on text with
no carriage returns. -/
theorem normalizeEolChars_id (cs : List Char) (h : '\x0d' ∉ cs) :
    normalizeEolChars cs = cs := by
  induction cs with
  | nil => rfl
  | cons c rest ih =>
    have hc : c ≠ '\x0d' := by
      intro hc
      exact h (hc ▸ List.mem_cons_self c rest)
    have hrest : '\x0d' ∉ rest := fun hm => h (List.mem_cons_of_mem c hm)
    cases rest with
    | nil =>
      show [if c = '\x0d' then '\n' else c] = [c]
      rw [if_neg hc]
    | cons d rest2 =>
      show (if c = '\x0d' ∧ d = '\n' then '\n' :: normalizeEolChars rest2
            else (if c = '\x0d' then '\n' else c) :: normalizeEolChars (d :: rest2))
          = c :: d :: rest2
      rw [if_neg (fun hpair => hc hpair.1), if_neg hc, ih hrest]

/-- Auxiliary: end-of-line normalization on strings without carriage
returns. -/
theorem normalizeEol_id (s : String) (h : '\x0d' ∉ s.toList) :
    normalizeEol s = s := by
  unfold normalizeEol
  rw [normalizeEolChars_id s.toList h]
  rfl

/-- Auxiliary: `xml_to_dict` folds the children of a node. -/
theorem xmlToDictVal_node (tag : String) (txt : Option String) (c : XElem) (cs : List XElem) :
    xmlToDictVal (.mk tag txt (c :: cs)) = .jobj ((c :: cs).foldl xmlFoldStep []) := by
  rw [xmlToDictVal]
  congr 1
  have h1 : ((c :: cs).attach.foldl (fun acc ch => xmlFoldStep acc ch.1)
      ([] : List (String × Json))) = (c :: cs).foldl xmlFoldStep [] := by
    conv_rhs => rw [← List.attach_map_subtype_val (c :: cs)]
    rw [List.foldl_map]
  exact h1

namespace DataConv

theorem mk_toList (s : String) : String.mk s.toList = s := rfl

theorem goodCell_comma (s : String) (h : goodCell s = true) : ',' ∉ s.toList := by
  intro hc
  unfold goodCell at h
  rw [List.all_eq_true] at h
  have := h ',' hc
  simp at this

theorem goodCell_newline (s : String) (h : goodCell s = true) : '\n' ∉ s.toList := by
  intro hc
  unfold goodCell at h
  rw [List.all_eq_true] at h
  have := h '\n' hc
  simp at this

theorem mem_joinComma (ls : List String) (c : Char) (hc : c ∈ joinComma ls) :
    c = ',' ∨ ∃ s ∈ ls, c ∈ s.toList := by
  induction ls with
  | nil => simp [joinComma] at hc
  | cons a rest ih =>
    cases rest with
    | nil =>
      right
      exact ⟨a, List.mem_cons_self a [], hc⟩
    | cons b r2 =>
      rw [show joinComma (a :: b :: r2) = a.toList ++ ',' :: joinComma (b :: r2) from rfl] at hc
      rcases List.mem_append.1 hc with h | h
      · right
        exact ⟨a, List.mem_cons_self a (b :: r2), h⟩
      · rcases List.mem_cons.1 h with rfl | h2
        · exact Or.inl rfl
        · rcases ih h2 with h3 | ⟨s, hs, hcs⟩
          · exact Or.inl h3
          · right
            exact ⟨s, List.mem_cons_of_mem a hs, hcs⟩

theorem newline_not_mem_joinComma (ls : List String)
    (h : ∀ s ∈ ls, goodCell s = true) : '\n' ∉ joinComma ls := by
  intro hc
  rcases mem_joinComma ls '\n' hc with h1 | ⟨s, hs, hcs⟩
  · cases h1
  · exact goodCell_newline s (h s hs) hcs

theorem joinComma_eq_nil_iff (ls : List String) :
    joinComma ls = [] ↔ ls = [] ∨ ls = [""] := by
  cases ls with
  | nil => simp [joinComma]
  | cons a rest =>
    cases rest with
    | nil =>
      show a.toList = [] ↔ _
      constructor
      · intro h
        right
        have ha : a = "" := by
          rw [String.ext_iff]
          simpa using h
        rw [ha]
      · rintro (h | h)
        · cases h
        · have : a = "" := by
            injection h
          rw [this]
          rfl
    | cons b r2 =>
      show a.toList ++ ',' :: joinComma (b :: r2) = [] ↔ _
      simp

theorem splitCells_joinComma (r : List String) (hne : r ≠ [])
    (hfree : ∀ s ∈ r, ',' ∉ s.toList) :
    splitCells (joinComma r) = r := by
  unfold splitCells
  rw [splitOn_joinComma r hne hfree, List.map_map]
  have hpt : ∀ s ∈ r, (String.mk ∘ String.toList) s = s := fun s _ => rfl
  rw [List.map_congr_left hpt]
  simp

theorem read_csv_of_lines (text : String) (header : List String) (cells : List (List String))
    (hsplit : ((text.toList.splitOn '\n').filter (fun l => !l.isEmpty))
      = (header :: cells).map joinComma)
    (hhne : header ≠ [])
    (hrect : ∀ r ∈ cells, r.length = header.length)
    (hgoodh : ∀ s ∈ header, ',' ∉ s.toList)
    (hgoodc : ∀ r ∈ cells, ∀ s ∈ r, ',' ∉ s.toList) :
    read_csv text = some ⟨header, cells.map (fun r => r.map inferCell)⟩ := by
  have hhead : splitCells (joinComma header) = header :=
    splitCells_joinComma header hhne hgoodh
  have hrow : ∀ r ∈ cells, splitCells (joinComma r) = r := by
    intro r hr
    have hrne : r ≠ [] := by
      intro h0
      have hlen := hrect r hr
      rw [h0] at hlen
      simp only [List.length_nil] at hlen
      exact hhne (List.length_eq_zero.1 hlen.symm)
    exact splitCells_joinComma r hrne (hgoodc r hr)
  unfold read_csv
  rw [hsplit, List.map_cons]
  have hcond : (cells.map joinComma).all
      (fun l => (splitCells l).length = (splitCells (joinComma header)).length) = true := by
    rw [List.all_eq_true]
    intro l hl
    obtain ⟨r, hr, rfl⟩ := List.mem_map.1 hl
    rw [hrow r hr, hhead]
    simp [hrect r hr]
  show (if (cells.map joinComma).all
      (fun l => (splitCells l).length = (splitCells (joinComma header)).length) then
        some (CsvTable.mk (splitCells (joinComma header)) ((cells.map joinComma).map
          (fun l => (splitCells l).map (fun c => inferCell c))))
      else none) = _
  have hrows : (cells.map joinComma).map (fun l => (splitCells l).map (fun c => inferCell c))
      = cells.map (fun r => r.map inferCell) := by
    rw [List.map_map]
    apply List.map_congr_left
    intro r hr
    show (splitCells (joinComma r)).map (fun c => inferCell c) = r.map inferCell
    rw [hrow r hr]
  rw [if_pos (by rw [hcond]), hhead, hrows]

end DataConv

namespace DataConv

end DataConv

/-- Auxiliary: keys without spaces are unchanged by underscoring. -/
theorem underscoreKey_id (k : String) (h : ' ' ∉ k.toList) : underscoreKey k = k := by
  unfold underscoreKey
  have hpt : ∀ c ∈ k.toList, (if c = ' ' then '_' else c) = c := by
    intro c hc
    rw [if_neg]
    intro h2
    exact h (h2 ▸ hc)
  rw [List.map_congr_left hpt, show (fun (c : Char) => c) = id from rfl, List.map_id]
  exact DataConv.mk_toList k

/-- Auxiliary: lookup misses keys that are not present. -/
theorem lookupJson_eq_none {l : List (String × Json)} {k : String}
    (h : k ∉ l.map Prod.fst) : l.lookup k = none := by
  induction l with
  | nil => rfl
  | cons p t ih =>
    obtain ⟨a, v⟩ := p
    have hka : (k == a) = false := by
      have : k ≠ a := fun hk => h (by simp [hk])
      simpa using this
    rw [List.lookup, hka]
    exact ih (fun hm => h (by simp [hm]))

/-- Auxiliary: inserting a fresh tag appends it. -/
theorem insertTag_new (acc : List (String × Json)) (tag : String) (v : Json)
    (h : tag ∉ acc.map Prod.fst) :
    insertTag acc tag v = acc ++ [(tag, v)] := by
  unfold insertTag
  rw [lookupJson_eq_none h]

/-- Auxiliary: folding fresh, pairwise-distinct tags appends them all
in order. -/
theorem foldl_insertTag_append (l : List (String × Json)) (acc : List (String × Json))
    (hnd : (l.map Prod.fst).Nodup)
    (hdisj : ∀ k ∈ l.map Prod.fst, k ∉ acc.map Prod.fst) :
    l.foldl (fun a kv => insertTag a kv.1 kv.2) acc = acc ++ l := by
  induction l generalizing acc with
  | nil => simp
  | cons kv t ih =>
    obtain ⟨k0, v0⟩ := kv
    rw [List.foldl_cons, insertTag_new acc k0 v0 (hdisj k0 (by simp))]
    have hnd2 : (t.map Prod.fst).Nodup := (List.nodup_cons.1 (by simpa using hnd)).2
    have hk0 : k0 ∉ t.map Prod.fst := (List.nodup_cons.1 (by simpa using hnd)).1
    rw [ih (acc ++ [(k0, v0)]) hnd2 ?_]
    · simp
    · intro k hk
      rw [List.map_append]
      intro hmem
      rcases List.mem_append.1 hmem with hm | hm
      · exact hdisj k (by simp [hk]) hm
      · simp at hm
        exact hk0 (hm ▸ hk)

/-- Claim C9, amended: for a nonempty flat JSON object with scalar
values, pairwise-distinct nonempty alphabetic keys, and value strings
made of XML-valid characters without carriage returns (carriage
returns would be normalized to line feeds by the XML re-parse and
control characters would make it raise), the JSON to XML to JSON round
trip returns the object wrapped under the `data` root key, with every
value replaced by its Python string form and empty strings (and nulls)
coming back as null; in particular the pairs are reproduced exactly,
inside the wrapper, when all values are nonempty strings or null, but
never as the original top-level object. -/
theorem json_xml_roundtrip_flat (kvs : List (String × Json))
    (hne : kvs ≠ [])
    (hscalar : ∀ kv ∈ kvs, jsonScalar kv.2 = true)
    (hkeys : ∀ kv ∈ kvs, kv.1 ≠ "" ∧ ∀ c ∈ kv.1.toList, c.isAlpha = true)
    (hval : ∀ kv ∈ kvs, (∀ c ∈ (pyStr kv.2).toList, xmlTextChar c = true)
        ∧ '\x0d' ∉ (pyStr kv.2).toList)
    (hnodup : (kvs.map Prod.fst).Nodup) :
    jsonXmlRoundTrip (.jobj kvs) =
      .jobj [("data", .jobj (kvs.map (fun kv => (kv.1, roundTripScalar kv.2))))] := by
  obtain ⟨kv0, kvt, rfl⟩ : ∃ a t, kvs = a :: t := by
    cases kvs with
    | nil => exact absurd rfl hne
    | cons a t => exact ⟨a, t, rfl⟩
  unfold jsonXmlRoundTrip json_to_xml
  rw [jsonToXmlElem_obj]
  have hch : ((kv0 :: kvt).map (fun kv => jsonToXmlElem (underscoreKey kv.1) kv.2))
      = (kv0 :: kvt).map (fun kv => XElem.mk kv.1 (some (pyStr kv.2)) []) := by
    apply List.map_congr_left
    intro kv hkv
    have hsp : ' ' ∉ kv.1.toList := by
      intro hmem
      have halpha := (hkeys kv hkv).2 ' ' hmem
      exact absurd halpha (by decide)
    rw [underscoreKey_id kv.1 hsp, jsonToXmlElem_scalar _ _ (hscalar kv hkv)]
  rw [hch, List.map_cons, reparse_node]
  have hch2 : ((XElem.mk kv0.1 (some (pyStr kv0.2)) [] ::
      kvt.map (fun kv => XElem.mk kv.1 (some (pyStr kv.2)) [])).map reparse)
      = (kv0 :: kvt).map (fun kv =>
          XElem.mk kv.1 (if pyStr kv.2 = "" then none else some (pyStr kv.2)) []) := by
    rw [← List.map_cons (fun kv => XElem.mk kv.1 (some (pyStr kv.2)) []) kv0 kvt, List.map_map]
    apply List.map_congr_left
    intro kv hkv
    show reparse (XElem.mk kv.1 (some (pyStr kv.2)) []) = _
    rw [reparse_leaf]
    show XElem.mk kv.1
        (if pyStr kv.2 = "" then none else some (normalizeEol (pyStr kv.2))) [] = _
    rw [normalizeEol_id _ (hval kv hkv).2]
  rw [hch2, List.map_cons]
  unfold xml_to_json
  rw [show (XElem.mk "data" (some prettyWs)
      (XElem.mk kv0.1 (if pyStr kv0.2 = "" then none else some (pyStr kv0.2)) [] ::
        kvt.map (fun kv =>
          XElem.mk kv.1 (if pyStr kv.2 = "" then none else some (pyStr kv.2)) []))).tag
      = "data" from rfl]
  rw [xmlToDictVal_node]
  congr 2
  rw [← List.map_cons (fun kv =>
      XElem.mk kv.1 (if pyStr kv.2 = "" then none else some (pyStr kv.2)) []) kv0 kvt]
  rw [List.foldl_map]
  have hstep : (fun (x : List (String × Json)) (y : String × Json) =>
      xmlFoldStep x (XElem.mk y.1 (if pyStr y.2 = "" then none else some (pyStr y.2)) []))
      = fun x y => insertTag x y.1 (roundTripScalar y.2) := by
    funext x y
    unfold xmlFoldStep roundTripScalar
    by_cases hp : pyStr y.2 = ""
    · simp [hp, XElem.children, XElem.text, XElem.tag]
    · simp [hp, XElem.children, XElem.text, XElem.tag]
  rw [hstep]
  have hremap : ((kv0 :: kvt).foldl (fun x y => insertTag x y.1 (roundTripScalar y.2)) [])
      = (((kv0 :: kvt).map (fun kv => (kv.1, roundTripScalar kv.2))).foldl
          (fun a kv => insertTag a kv.1 kv.2) []) := by
    rw [List.foldl_map]
  rw [hremap, foldl_insertTag_append _ [] ?_ ?_]
  · rw [List.nil_append]
  · rw [List.map_map]
    have : ((kv0 :: kvt).map (Prod.fst ∘ fun kv => (kv.1, roundTripScalar kv.2)))
        = (kv0 :: kvt).map Prod.fst := rfl
    rw [this]
    exact hnodup
  · intro k hk
    simp

/-- Claim C9, counterexample: the object mapping a to the number 5 has
only scalar leaves and no repeated keys, yet the round trip yields the
object wrapped under a `data` key with the value stringified, not the
original key/value pairs. -/
theorem json_xml_roundtrip_fails :
    jsonXmlRoundTrip (.jobj [("a", .jint 5)]) =
      .jobj [("data", .jobj [("a", .jstr "5")])]
    ∧ jsonXmlRoundTrip (.jobj [("a", .jint 5)]) ≠ .jobj [("a", .jint 5)] := by
  have hA : json_to_xml (Json.jobj [("a", Json.jint 5)])
      = XElem.mk "data" none [XElem.mk "a" (some "5") []] := by
    unfold json_to_xml
    rw [jsonToXmlElem_obj]
    simp only [List.map_cons, List.map_nil]
    rw [jsonToXmlElem_scalar _ _ (by rfl)]
    rfl
  have hB : reparse (XElem.mk "data" none [XElem.mk "a" (some "5") []])
      = XElem.mk "data" (some prettyWs) [XElem.mk "a" (some "5") []] := by
    rw [reparse_node]
    simp only [List.map_cons, List.map_nil]
    rw [reparse_leaf]
    rfl
  have hC : xml_to_json (XElem.mk "data" (some prettyWs) [XElem.mk "a" (some "5") []])
      = Json.jobj [("data", Json.jobj [("a", Json.jstr "5")])] := by
    unfold xml_to_json
    rw [show (XElem.mk "data" (some prettyWs) [XElem.mk "a" (some "5") []]).tag
        = "data" from rfl]
    rw [xmlToDictVal_node]
    rfl
  have h1 : jsonXmlRoundTrip (.jobj [("a", .jint 5)]) =
      .jobj [("data", .jobj [("a", .jstr "5")])] := by
    unfold jsonXmlRoundTrip
    rw [hA, hB, hC]
  refine ⟨h1, ?_⟩
  rw [h1]
  simp


/-- Witness for C9 amended on a two-key object with a nonempty string
value and a null value, which is reproduced exactly inside the `data`
wrapper. -/
theorem json_xml_roundtrip_flat_witness :
    jsonXmlRoundTrip (.jobj [("a", .jstr "x"), ("b", .jnull)]) =
      .jobj [("data", .jobj ([("a", Json.jstr "x"), ("b", Json.jnull)].map
        (fun kv => (kv.1, roundTripScalar kv.2))))] :=
  json_xml_roundtrip_flat [("a", .jstr "x"), ("b", .jnull)]
    (by simp) (by decide) (by decide) (by decide) (by decide)
